import Mathlib

/-!
# Verification of the FlowSTT real-time audio pipeline

A shallow embedding, in Lean 4, of the core data structures and operations of
the FlowSTT speech-to-text service (Rust), together with theorems checking the
natural-language specification against the code.

Embedding conventions:
* Rust `f32` samples are modelled as `ℚ`.  Comparisons that the Rust code makes
  against irrational constants (`10^(db/20)` thresholds produced by `log10` /
  `sqrt`) are rewritten through strictly monotone transformations into exact
  rational comparisons; each such definition notes the transformation used.
* Rust `usize`/`u32`/`u64` counters are modelled as `ℕ` (the programs never
  approach overflow: all counters are bounded by sample counts).
* Stateful methods become pure functions `State → args → State` (or
  `State × result`).  Calls into external collaborators (the AEC3 library,
  the output channel, the file system) are modelled by recording them in the
  state (`outputs`, frame counters) — the trace of external calls.
* The transcription queue (`transcription/queue.rs` is not part of the sources
  provided) is modelled from the spec as a bounded FIFO.
-/

set_option maxRecDepth 4000

namespace FlowSTT

/-! ## Segment ring buffer (`transcription/transcribe_state.rs`) -/

/-- Ring buffer capacity: 30 seconds at 48kHz stereo. -/
def RING_BUFFER_CAPACITY : ℕ := 48000 * 30 * 2

/-- Overflow threshold: 90% of buffer capacity. -/
def OVERFLOW_THRESHOLD_PERCENT : ℕ := 90

/-- Maximum segment duration before seeking word break (ms). -/
def MAX_SEGMENT_DURATION_MS : ℕ := 4000

/-- Grace period after duration threshold before forcing segment submission (ms). -/
def WORD_BREAK_GRACE_MS : ℕ := 750

/-- Minimum segment duration to submit for transcription (ms). -/
def MIN_SEGMENT_DURATION_MS : ℕ := 500

/-- `SegmentRingBuffer`: a ring buffer for continuous audio capture. -/
structure SegmentRingBuffer where
  buffer : List ℚ
  write_pos : ℕ
  capacity : ℕ
  total_written : ℕ
deriving Repr, DecidableEq

namespace SegmentRingBuffer

/-- `SegmentRingBuffer::new`. -/
def new (capacity : ℕ) : SegmentRingBuffer :=
  { buffer := List.replicate capacity 0
    write_pos := 0
    capacity := capacity
    total_written := 0 }

/-- Writing one sample: the body of the loop in `SegmentRingBuffer::write`. -/
def write1 (rb : SegmentRingBuffer) (sample : ℚ) : SegmentRingBuffer :=
  { rb with
    buffer := rb.buffer.set rb.write_pos sample
    write_pos := (rb.write_pos + 1) % rb.capacity
    total_written := rb.total_written + 1 }

/-- `SegmentRingBuffer::write`: write samples, advancing and wrapping. -/
def write (rb : SegmentRingBuffer) (samples : List ℚ) : SegmentRingBuffer :=
  samples.foldl write1 rb

/-- `SegmentRingBuffer::segment_length`. -/
def segment_length (rb : SegmentRingBuffer) (start_idx : ℕ) : ℕ :=
  if start_idx ≤ rb.write_pos then rb.write_pos - start_idx
  else rb.capacity - start_idx + rb.write_pos

/-- `SegmentRingBuffer::index_from_lookback`. -/
def index_from_lookback (rb : SegmentRingBuffer) (lookback_samples : ℕ) : ℕ :=
  if rb.capacity ≤ lookback_samples then rb.write_pos
  else if lookback_samples ≤ rb.write_pos then rb.write_pos - lookback_samples
  else rb.capacity - (lookback_samples - rb.write_pos)

/-- `SegmentRingBuffer::is_approaching_overflow`. -/
def is_approaching_overflow (rb : SegmentRingBuffer) (start_idx : ℕ) : Bool :=
  (rb.capacity * OVERFLOW_THRESHOLD_PERCENT) / 100 ≤ rb.segment_length start_idx

/-- `SegmentRingBuffer::extract_segment_to`: copy `buffer[start..end]`, splicing
across the wrap seam when `end < start`. -/
def extract_segment_to (rb : SegmentRingBuffer) (start_idx end_idx : ℕ) : List ℚ :=
  if start_idx ≤ end_idx then (rb.buffer.drop start_idx).take (end_idx - start_idx)
  else rb.buffer.drop start_idx ++ rb.buffer.take end_idx

/-- `SegmentRingBuffer::extract_segment`. -/
def extract_segment (rb : SegmentRingBuffer) (start_idx : ℕ) : List ℚ :=
  rb.extract_segment_to start_idx rb.write_pos

/-- `SegmentRingBuffer::clear`. -/
def clear (rb : SegmentRingBuffer) : SegmentRingBuffer :=
  { rb with write_pos := 0, total_written := 0 }

/-- The length `extract_segment_to` computes for a `(start, end)` pair
(the same arithmetic as `segment_length`, with a free end index). -/
def seg_len (rb : SegmentRingBuffer) (start_idx end_idx : ℕ) : ℕ :=
  if start_idx ≤ end_idx then end_idx - start_idx
  else rb.capacity - start_idx + end_idx

end SegmentRingBuffer

/-! ## Transcribe state (`transcription/transcribe_state.rs`) -/

/-- Minimum RMS amplitude threshold for non-silent audio (linear scale),
approximately −40 dB: `0.01`. -/
def MIN_AUDIO_RMS_THRESHOLD : ℚ := 1 / 100

/-- `QueuedSegment` (the debug WAV path is an external-file-system detail and
is not modelled). -/
structure QueuedSegment where
  samples : List ℚ
  sample_rate : ℕ
  channels : ℕ
deriving Repr, DecidableEq

/-- Modelled from the spec: `transcription/queue.rs` is not among the provided
sources.  §4.F describes the transcription queue as a bounded FIFO with a
recommended capacity of 8 segments. -/
def QUEUE_CAPACITY : ℕ := 8

/-- Modelled from the spec: `TranscriptionQueue::enqueue` — append to the
bounded FIFO, returning `false` (segment dropped) when full. -/
def enqueue (queue : List QueuedSegment) (seg : QueuedSegment) :
    List QueuedSegment × Bool :=
  if queue.length < QUEUE_CAPACITY then (queue ++ [seg], true) else (queue, false)

/-- Sum of squared samples (the numerator of the RMS computation). -/
def sumSquares (samples : List ℚ) : ℚ := (samples.map (fun s => s * s)).sum

/-- `TranscribeState` (callback omitted: an external effect). -/
structure TranscribeState where
  ring_buffer : SegmentRingBuffer
  is_active : Bool
  in_speech : Bool
  segment_start_idx : ℕ
  sample_rate : ℕ
  channels : ℕ
  transcription_queue : List QueuedSegment
  segment_sample_count : ℕ
  seeking_word_break : Bool
  word_break_seek_start_samples : ℕ
  lookback_sample_count : ℕ
deriving Repr, DecidableEq

namespace TranscribeState

/-- `TranscribeState::samples_to_ms`. -/
def samples_to_ms (ts : TranscribeState) (samples : ℕ) : ℕ :=
  samples * 1000 / ts.sample_rate

/-- `TranscribeState::ms_to_samples`. -/
def ms_to_samples (ts : TranscribeState) (ms : ℕ) : ℕ :=
  ms * ts.sample_rate / 1000

/-- `TranscribeState::is_segment_valid_for_transcription`.
The code computes `rms = sqrt(sum_squares / len)` and rejects when
`rms < 0.01`; both sides are nonnegative and squaring is strictly monotone
on nonnegatives, so the test is exactly `sum_squares / len < 1/10000`,
i.e. `sum_squares * 10000 < len` — the rational form used here. -/
def is_segment_valid_for_transcription (ts : TranscribeState)
    (samples : List ℚ) : Bool :=
  if samples.isEmpty then false
  else if samples.length * 1000 / ts.sample_rate < MIN_SEGMENT_DURATION_MS then
    false
  else if sumSquares samples * 10000 < (samples.length : ℚ) then false
  else true

/-- `TranscribeState::queue_segment`: validate, then enqueue (saving the WAV
file is an external effect and is not modelled; the queue effect is). -/
def queue_segment (ts : TranscribeState) (samples : List ℚ) : TranscribeState :=
  if samples.isEmpty then ts
  else if ts.is_segment_valid_for_transcription samples = false then ts
  else
    { ts with
      transcription_queue :=
        (enqueue ts.transcription_queue
          { samples := samples
            sample_rate := ts.sample_rate
            channels := ts.channels }).1 }

/-- `TranscribeState::on_word_break`. -/
def on_word_break (ts : TranscribeState) (offset_ms gap_duration_ms : ℕ) :
    TranscribeState × Option (List ℚ) :=
  if ts.is_active = false ∨ ts.in_speech = false ∨ ts.seeking_word_break = false
  then (ts, none)
  else
    let gap_midpoint_ms := offset_ms + gap_duration_ms / 2
    let gap_midpoint_samples := ts.ms_to_samples gap_midpoint_ms
    let extraction_length :=
      min (ts.lookback_sample_count + gap_midpoint_samples)
        (ts.lookback_sample_count + ts.segment_sample_count)
    if extraction_length = 0 then (ts, none)
    else
      let extraction_end_idx :=
        (ts.segment_start_idx + extraction_length) % ts.ring_buffer.capacity
      let segment :=
        ts.ring_buffer.extract_segment_to ts.segment_start_idx extraction_end_idx
      if segment.isEmpty then (ts, none)
      else
        ((fun ts1 =>
          { ts1 with
            segment_start_idx := extraction_end_idx
            lookback_sample_count := 0
            segment_sample_count := ts.segment_sample_count - gap_midpoint_samples
            seeking_word_break := false }) (ts.queue_segment segment),
         some segment)

end TranscribeState

/-! ## Audio mixer
(`platform/linux/pipewire.rs`, `platform/macos/coreaudio.rs`,
`platform/windows/wasapi.rs` — the three `AudioMixer`s are identical except
for the Mixed-mode combination formula, which is a parameter below) -/

/-- AEC3 frame size: 10ms at 48kHz = 480 samples per channel. -/
def AEC_FRAME_SAMPLES : ℕ := 480

/-- `RecordingMode` (`src-common`). -/
inductive RecordingMode where
  | Mixed
  | EchoCancel
deriving Repr, DecidableEq

/-- Mixer state.  The calls to the external AEC3 library
(`aec.handle_render_frame`) and to the output channel (`output_tx.send`) are
modelled as traces: a count of render frames handed to the AEC and the list of
emitted output frames. -/
structure AudioMixer where
  capture_buffer : List ℚ
  render_buffer : List ℚ
  render_mix_buffer : List ℚ
  num_streams : ℕ
  channels : ℕ
  /-- whether the `aec : Option<VoipAec3>` field is `Some`. -/
  hasAec : Bool
  /-- trace: number of frames passed to `aec.handle_render_frame`. -/
  aec_render_frames : ℕ
  /-- trace: number of capture frames consumed by `process_capture`. -/
  captures_processed : ℕ
  /-- trace: frames sent to `output_tx`. -/
  outputs : List (List ℚ)
deriving Repr, DecidableEq

namespace AudioMixer

/-- The render-feeding loop inside `push_samples` (sink branch): while a full
frame is buffered, drain it and hand it to `aec.handle_render_frame`.
The `0 < frame_size` guard reflects that `channels ≥ 1` for any real stream
(with `frame_size = 0` the Rust loop would not terminate either). -/
def drainRender (m : AudioMixer) : AudioMixer :=
  if _h : 0 < AEC_FRAME_SAMPLES * m.channels
      ∧ AEC_FRAME_SAMPLES * m.channels ≤ m.render_buffer.length then
    drainRender
      { m with
        render_buffer := m.render_buffer.drop (AEC_FRAME_SAMPLES * m.channels)
        aec_render_frames := m.aec_render_frames + 1 }
  else m
termination_by m.render_buffer.length
decreasing_by
  simp only [List.length_drop]
  omega

/-- The `processed_capture` local of `process_capture`: apply the external
AEC oracle when AEC is enabled and an instance exists, else the raw frame
(on AEC error the code substitutes the raw frame — subsumed by an oracle that
returns its input there). -/
def processedCaptureFrame (aecProcess : List ℚ → List ℚ) (aec_enabled : Bool)
    (m : AudioMixer) : List ℚ :=
  if aec_enabled = true ∧ m.hasAec = true then
    aecProcess (m.capture_buffer.take (AEC_FRAME_SAMPLES * m.channels))
  else m.capture_buffer.take (AEC_FRAME_SAMPLES * m.channels)

/-- The `output` local of `process_capture`: combine with the render-mix frame
in `Mixed` mode (`combine` is the platform-specific per-sample formula), or
pass the processed capture through in `EchoCancel` mode. -/
def outputFrame (combine : ℚ → ℚ → ℚ) (aecProcess : List ℚ → List ℚ)
    (aec_enabled : Bool) (mode : RecordingMode) (m : AudioMixer) : List ℚ :=
  match mode with
  | RecordingMode.Mixed =>
      List.zipWith combine (processedCaptureFrame aecProcess aec_enabled m)
        (m.render_mix_buffer.take (AEC_FRAME_SAMPLES * m.channels))
  | RecordingMode.EchoCancel => processedCaptureFrame aecProcess aec_enabled m

/-- `AudioMixer::process_capture`: while both a full capture frame and a full
render-mix frame are buffered, consume one of each and emit one output frame.
The `0 < frame_size` guard reflects that `channels ≥ 1` for any real stream. -/
def processCapture (combine : ℚ → ℚ → ℚ) (aecProcess : List ℚ → List ℚ)
    (aec_enabled : Bool) (mode : RecordingMode) (m : AudioMixer) : AudioMixer :=
  if _h : 0 < AEC_FRAME_SAMPLES * m.channels
      ∧ AEC_FRAME_SAMPLES * m.channels ≤ m.capture_buffer.length
      ∧ AEC_FRAME_SAMPLES * m.channels ≤ m.render_mix_buffer.length then
    processCapture combine aecProcess aec_enabled mode
      { m with
        capture_buffer := m.capture_buffer.drop (AEC_FRAME_SAMPLES * m.channels)
        render_mix_buffer :=
          m.render_mix_buffer.drop (AEC_FRAME_SAMPLES * m.channels)
        captures_processed := m.captures_processed + 1
        outputs := m.outputs ++ [outputFrame combine aecProcess aec_enabled mode m] }
  else m
termination_by m.capture_buffer.length
decreasing_by
  simp only [List.length_drop]
  omega

/-- The AEC-feeding step of the sink branch of `push_samples`: drain render
frames only when the `aec` instance exists. -/
def feedRender (m : AudioMixer) : AudioMixer :=
  if m.hasAec then drainRender m else m

/-- `AudioMixer::push_samples`. -/
def pushSamples (combine : ℚ → ℚ → ℚ) (aecProcess : List ℚ → List ℚ)
    (aec_enabled : Bool) (mode : RecordingMode) (m : AudioMixer)
    (samples : List ℚ) (is_sink_capture : Bool) : AudioMixer :=
  if m.num_streams = 1 then { m with outputs := m.outputs ++ [samples] }
  else if is_sink_capture then
    feedRender
      { m with
        render_buffer := m.render_buffer ++ samples,
        render_mix_buffer := m.render_mix_buffer ++ samples }
  else
    processCapture combine aecProcess aec_enabled mode
      { m with capture_buffer := m.capture_buffer ++ samples }

/-- The PipeWire Mixed-mode combine: `(s1 + s2) * 0.5`. -/
def pipewireCombine (s1 s2 : ℚ) : ℚ := (s1 + s2) * (1/2)

/-- The CoreAudio / WASAPI Mixed-mode combine: soft clipping of the plain sum.
The out-of-range branches use the transcendental `exp`, taken as the parameter
`e` (the in-range branch, `|sum| ≤ 1`, does not evaluate it). -/
def softClipCombine (e : ℚ → ℚ) (s1 s2 : ℚ) : ℚ :=
  if 1 < s1 + s2 then 1 - e (-2 * (s1 + s2 - 1)) * (1/2)
  else if s1 + s2 < -1 then -1 + e (-2 * (-(s1 + s2) - 1)) * (1/2)
  else s1 + s2

/-- One `push_samples` call as an event (the `aec_enabled` / `recording_mode`
mutex values are read per call, so they are carried per event). -/
structure PushEvent where
  samples : List ℚ
  is_sink_capture : Bool
  aec_enabled : Bool
  mode : RecordingMode
deriving Repr, DecidableEq

/-- A sequence of `push_samples` calls. -/
def runMixer (combine : ℚ → ℚ → ℚ) (aecProcess : List ℚ → List ℚ)
    (m0 : AudioMixer) (events : List PushEvent) : AudioMixer :=
  events.foldl
    (fun m ev =>
      pushSamples combine aecProcess ev.aec_enabled ev.mode m
        ev.samples ev.is_sink_capture)
    m0

/-- Mixer state after `set_num_streams(2)` with successful AEC creation. -/
def mixerTwoStream (channels : ℕ) : AudioMixer :=
  { capture_buffer := []
    render_buffer := []
    render_mix_buffer := []
    num_streams := 2
    channels := channels
    hasAec := true
    aec_render_frames := 0
    captures_processed := 0
    outputs := [] }

end AudioMixer

/-- The mixer invariant relating the AEC render trace, the capture trace, and
the two render buffers: both render buffers have received the same input; the
AEC-side one keeps less than one frame, the mix-side one holds what capture
processing has not yet consumed. -/
def MixerInv (m : AudioMixer) : Prop :=
  m.render_buffer.length < AEC_FRAME_SAMPLES * m.channels
  ∧ m.aec_render_frames * (AEC_FRAME_SAMPLES * m.channels)
      + m.render_buffer.length
    = m.captures_processed * (AEC_FRAME_SAMPLES * m.channels)
      + m.render_mix_buffer.length

/-! ## Speech detector (`processor.rs`)

The detector's `f32` features are modelled over `ℚ`.  The square root inside
`calculate_rms` is taken as the oracle parameter `sqrtA` (its value only flows
into the stored metrics and the word-break amplitude average, which no
threshold decision in the claims depends on); every decibel comparison is
translated into an exact rational comparison through a strictly monotone
transformation, noted at each definition. -/

/-- `SpeechStateChange`. -/
inductive SpeechStateChange where
  | none
  | started (lookback_samples : ℕ)
  | ended (duration_ms : ℕ)
deriving Repr, DecidableEq

/-- `WordBreakEvent`. -/
structure WordBreakEvent where
  offset_ms : ℕ
  gap_duration_ms : ℕ
deriving Repr, DecidableEq

/-- `SpeechModeConfig`.  The default thresholds are whole dB values, so
`threshold_db` is an integer. -/
structure SpeechModeConfig where
  threshold_db : ℤ
  zcr_min : ℚ
  zcr_max : ℚ
  centroid_min : ℚ
  centroid_max : ℚ
  onset_samples : ℕ
deriving Repr, DecidableEq

/-- `SpeechDetector` state.  `last_amplitude_rms` holds the RMS underlying the
stored `last_amplitude_db` (`db = 20·log10(rms)` is strictly monotone in it,
with `rms = 0` standing for `-∞ dB`). -/
structure SpeechDetector where
  sample_rate : ℕ
  voiced_config : SpeechModeConfig
  whisper_config : SpeechModeConfig
  transient_zcr_threshold : ℚ
  transient_centroid_threshold : ℚ
  hold_samples : ℕ
  is_speaking : Bool
  is_pending_voiced : Bool
  is_pending_whisper : Bool
  voiced_onset_count : ℕ
  whisper_onset_count : ℕ
  silence_sample_count : ℕ
  speech_sample_count : ℕ
  onset_grace_samples : ℕ
  voiced_grace_count : ℕ
  whisper_grace_count : ℕ
  initialized : Bool
  last_amplitude_rms : ℚ
  last_zcr : ℚ
  last_centroid_hz : ℚ
  last_is_transient : Bool
  lookback_buffer : List ℚ
  lookback_write_index : ℕ
  lookback_capacity : ℕ
  lookback_filled : Bool
  lookback_threshold_db : ℤ
  last_lookback_offset_ms : Option ℕ
  last_state_change : SpeechStateChange
  word_break_threshold_ratio : ℚ
  min_word_break_samples : ℕ
  max_word_break_samples : ℕ
  recent_speech_window_samples : ℕ
  recent_speech_amplitude_sum : ℚ
  recent_speech_amplitude_count : ℕ
  in_word_break : Bool
  word_break_sample_count : ℕ
  word_break_start_speech_samples : ℕ
  last_is_word_break : Bool
  last_word_break_event : Option WordBreakEvent
deriving DecidableEq

namespace SpeechDetector

/-- `SpeechDetector::with_defaults`. -/
def with_defaults (sample_rate : ℕ) : SpeechDetector :=
  { sample_rate := sample_rate
    voiced_config :=
      { threshold_db := -42
        zcr_min := 1/100, zcr_max := 3/10
        centroid_min := 200, centroid_max := 5500
        onset_samples := sample_rate * 80 / 1000 }
    whisper_config :=
      { threshold_db := -52
        zcr_min := 2/25, zcr_max := 9/20
        centroid_min := 300, centroid_max := 7000
        onset_samples := sample_rate * 120 / 1000 }
    transient_zcr_threshold := 9/20
    transient_centroid_threshold := 6500
    hold_samples := sample_rate * 300 / 1000
    is_speaking := false
    is_pending_voiced := false
    is_pending_whisper := false
    voiced_onset_count := 0
    whisper_onset_count := 0
    silence_sample_count := 0
    speech_sample_count := 0
    onset_grace_samples := sample_rate * 30 / 1000
    voiced_grace_count := 0
    whisper_grace_count := 0
    initialized := false
    last_amplitude_rms := 0
    last_zcr := 0
    last_centroid_hz := 0
    last_is_transient := false
    lookback_buffer := List.replicate (sample_rate * 200 / 1000) 0
    lookback_write_index := 0
    lookback_capacity := sample_rate * 200 / 1000
    lookback_filled := false
    lookback_threshold_db := -55
    last_lookback_offset_ms := none
    last_state_change := SpeechStateChange.none
    word_break_threshold_ratio := 1/2
    min_word_break_samples := sample_rate * 15 / 1000
    max_word_break_samples := sample_rate * 200 / 1000
    recent_speech_window_samples := sample_rate * 100 / 1000
    recent_speech_amplitude_sum := 0
    recent_speech_amplitude_count := 0
    in_word_break := false
    word_break_sample_count := 0
    word_break_start_speech_samples := 0
    last_is_word_break := false
    last_word_break_event := none }

/-- `SpeechDetector::calculate_rms` with the square root as an oracle:
`0` for an empty frame, else `sqrtA(sum_squares / len)`. -/
def calculate_rms (sqrtA : ℚ → ℚ) (samples : List ℚ) : ℚ :=
  if samples.isEmpty then 0
  else sqrtA (sumSquares samples / samples.length)

/-- `amplitude_to_db(rms) ≥ t` for an integer dB threshold `t`:
`20·log10(rms) ≥ t ⟺ rms > 0 ∧ rms^20 ≥ 10^t` (log10 is strictly monotone
on positives; `rms ≤ 0` maps to `-∞`). -/
def dbGe (rms : ℚ) (t : ℤ) : Prop := 0 < rms ∧ (10 : ℚ) ^ t ≤ rms ^ 20

instance (rms : ℚ) (t : ℤ) : Decidable (dbGe rms t) := by
  unfold dbGe
  infer_instance

/-- The sign-change count of `calculate_zcr`: adjacent pairs with
`(s[i] ≥ 0) ≠ (s[i-1] ≥ 0)`. -/
def crossings : List ℚ → ℕ
  | a :: b :: t =>
      (if (decide (0 ≤ a) ≠ decide (0 ≤ b)) then 1 else 0) + crossings (b :: t)
  | _ => 0

/-- `SpeechDetector::calculate_zcr`. -/
def calculate_zcr (samples : List ℚ) : ℚ :=
  if samples.length < 2 then 0
  else (crossings samples : ℚ) / ((samples.length : ℚ) - 1)

/-- The first-difference sum of `estimate_spectral_centroid`. -/
def sumAbsDiff : List ℚ → ℚ
  | a :: b :: t => |b - a| + sumAbsDiff (b :: t)
  | _ => 0

/-- `SpeechDetector::estimate_spectral_centroid`: gated to 0 for short frames,
for amplitudes under the −55 dB gate (`¬ dbGe rms (-55)`), and for
`mean|x| < 10⁻¹⁰`. -/
def estimate_spectral_centroid (sample_rate : ℕ) (samples : List ℚ)
    (rms : ℚ) : ℚ :=
  if samples.length < 2 ∨ ¬ dbGe rms (-55) then 0
  else
    let mean_diff := sumAbsDiff samples / ((samples.length : ℚ) - 1)
    let mean_abs := (samples.map (fun s => |s|)).sum / (samples.length : ℚ)
    if mean_abs < (10 : ℚ) ^ (-10 : ℤ) then 0
    else (sample_rate : ℚ) * mean_diff / (2 * mean_abs)

/-- `SpeechDetector::is_transient`. -/
def is_transient (d : SpeechDetector) (zcr centroid : ℚ) : Prop :=
  d.transient_zcr_threshold < zcr ∧ d.transient_centroid_threshold < centroid

instance (d : SpeechDetector) (zcr centroid : ℚ) :
    Decidable (d.is_transient zcr centroid) := by
  unfold is_transient
  infer_instance

/-- `SpeechDetector::matches_voiced_mode` / `matches_whisper_mode` (both read
only their mode configuration). -/
def matchesMode (cfg : SpeechModeConfig) (rms zcr centroid : ℚ) : Prop :=
  dbGe rms cfg.threshold_db
  ∧ cfg.zcr_min ≤ zcr ∧ zcr ≤ cfg.zcr_max
  ∧ cfg.centroid_min ≤ centroid ∧ centroid ≤ cfg.centroid_max

instance (cfg : SpeechModeConfig) (rms zcr centroid : ℚ) :
    Decidable (matchesMode cfg rms zcr centroid) := by
  unfold matchesMode
  infer_instance

/-- `SpeechDetector::samples_to_ms`. -/
def samples_to_ms (d : SpeechDetector) (samples : ℕ) : ℕ :=
  samples * 1000 / d.sample_rate

/-- `SpeechDetector::reset_onset_state`. -/
def reset_onset_state (d : SpeechDetector) : SpeechDetector :=
  { d with
    is_pending_voiced := false
    is_pending_whisper := false
    voiced_onset_count := 0
    whisper_onset_count := 0
    voiced_grace_count := 0
    whisper_grace_count := 0 }

/-- The loop body of `push_to_lookback_buffer` on the three lookback fields. -/
def lookbackPush1 (cap : ℕ) (st : List ℚ × ℕ × Bool) (sample : ℚ) :
    List ℚ × ℕ × Bool :=
  (st.1.set st.2.1 sample, (st.2.1 + 1) % cap,
    if (st.2.1 + 1) % cap = 0 then true else st.2.2)

/-- `SpeechDetector::push_to_lookback_buffer`. -/
def push_to_lookback_buffer (d : SpeechDetector) (samples : List ℚ) :
    SpeechDetector :=
  (fun r => { d with
      lookback_buffer := r.1
      lookback_write_index := r.2.1
      lookback_filled := r.2.2 })
    (samples.foldl (lookbackPush1 d.lookback_capacity)
      (d.lookback_buffer, d.lookback_write_index, d.lookback_filled))

/-- `SpeechDetector::get_lookback_buffer_contents`. -/
def get_lookback_buffer_contents (d : SpeechDetector) : List ℚ :=
  if d.lookback_filled = false then d.lookback_buffer.take d.lookback_write_index
  else d.lookback_buffer.drop d.lookback_write_index
    ++ d.lookback_buffer.take d.lookback_write_index

/-- The chunk peak of `find_lookback_start`: `map(abs).fold(0, max)`. -/
def chunkPeak (chunk : List ℚ) : ℚ := (chunk.map (fun s => |s|)).foldl max 0

/-- `peak ≥ 10^(lookback_threshold_db/20)` for the detector's
`lookback_threshold_db = -55`: the peak is nonnegative, so raising both sides
to the 4th power gives the exact form `peak^4 ≥ 10^(-11)`. -/
def peakAboveLookbackThreshold (peak : ℚ) : Prop :=
  (10 : ℚ) ^ (-11 : ℤ) ≤ peak ^ 4

instance (peak : ℚ) : Decidable (peakAboveLookbackThreshold peak) := by
  unfold peakAboveLookbackThreshold
  infer_instance

/-- The body of the backward scan of `find_lookback_start`, structurally
recursive on a fuel argument: each iteration of the Rust `while pos > 0` loop
decreases `pos` by at least one (`chunk_start = pos.saturating_sub(128)`), so
a fuel of `pos` bounds the iteration count and `lookbackScanLoop` below
recovers the loop exactly (`lookbackScanLoop_unfold`). -/
def lookbackScanAux (buffer : List ℚ) : ℕ → ℕ → ℕ → ℕ
  | 0, _, first_above => first_above
  | fuel + 1, pos, first_above =>
    if pos = 0 then first_above
    else if peakAboveLookbackThreshold
        (chunkPeak ((buffer.drop (pos - 128)).take (pos - (pos - 128)))) then
      lookbackScanAux buffer fuel (pos - 128) (pos - 128)
    else if first_above < buffer.length then first_above
    else lookbackScanAux buffer fuel (pos - 128) first_above

/-- The backward 128-sample-chunk scan loop of `find_lookback_start`:
`first_above` starts at `buffer.length` ("none seen"); an above-threshold
chunk records its start; a below-threshold chunk after an above one stops. -/
def lookbackScanLoop (buffer : List ℚ) (pos first_above : ℕ) : ℕ :=
  lookbackScanAux buffer pos pos first_above

/-- `SpeechDetector::find_lookback_start`. -/
def find_lookback_start (d : SpeechDetector) : List ℚ × ℕ :=
  (fun buffer =>
    if buffer.isEmpty then (([] : List ℚ), 0)
    else
      (fun start_with_margin =>
        (buffer.drop start_with_margin,
          (buffer.length - start_with_margin) * 1000 / d.sample_rate))
      (lookbackScanLoop buffer buffer.length buffer.length
        - d.sample_rate * 20 / 1000))
  d.get_lookback_buffer_contents

/-- `SpeechDetector::update_speech_amplitude_average`. -/
def update_speech_amplitude_average (d : SpeechDetector) (rms : ℚ) (n : ℕ) :
    SpeechDetector :=
  (fun sum count =>
    if d.recent_speech_window_samples < count then
      { d with
        recent_speech_amplitude_sum :=
          sum * ((d.recent_speech_window_samples : ℚ) / (count : ℚ))
        recent_speech_amplitude_count := d.recent_speech_window_samples }
    else
      { d with
        recent_speech_amplitude_sum := sum
        recent_speech_amplitude_count := count })
  (d.recent_speech_amplitude_sum + rms * n) (d.recent_speech_amplitude_count + n)

/-- `SpeechDetector::get_recent_speech_amplitude`. -/
def get_recent_speech_amplitude (d : SpeechDetector) : ℚ :=
  if d.recent_speech_amplitude_count = 0 then 0
  else d.recent_speech_amplitude_sum / (d.recent_speech_amplitude_count : ℚ)

/-- `SpeechDetector::reset_word_break_state`. -/
def reset_word_break_state (d : SpeechDetector) : SpeechDetector :=
  { d with
    in_word_break := false
    word_break_sample_count := 0
    word_break_start_speech_samples := 0
    recent_speech_amplitude_sum := 0
    recent_speech_amplitude_count := 0
    last_is_word_break := false
    last_word_break_event := none }

/-- The per-frame features `(rms, zcr, centroid)` computed at the top of
`process`. -/
def frameFeatures (sqrtA : ℚ → ℚ) (d : SpeechDetector) (samples : List ℚ) :
    ℚ × ℚ × ℚ :=
  (fun rms =>
    (rms, calculate_zcr samples,
      estimate_spectral_centroid d.sample_rate samples rms))
  (calculate_rms sqrtA samples)

/-- The start of `process`: reset the per-call event fields, push the frame
into the lookback ring, and store the metrics caches. -/
def prepareFrame (sqrtA : ℚ → ℚ) (d : SpeechDetector) (samples : List ℚ) :
    SpeechDetector :=
  (fun d1 =>
    (fun f =>
      { d1 with
        last_amplitude_rms := f.1
        last_zcr := f.2.1
        last_centroid_hz := f.2.2
        last_is_transient := decide (d1.is_transient f.2.1 f.2.2)
        last_lookback_offset_ms := none
        last_is_word_break := false })
    (frameFeatures sqrtA d samples))
  (push_to_lookback_buffer
    { d with
      last_state_change := SpeechStateChange.none
      last_word_break_event := none }
    samples)

/-- Speech-onset confirmation (shared by the voiced and whisper paths):
set speaking, seed the speech counter from the onset counter, reset onset
state, run the lookback scan, and record the `Started` state change. -/
def confirmSpeech (d : SpeechDetector) (onset_count : ℕ) : SpeechDetector :=
  (fun d1 =>
    (fun r =>
      { d1 with
        last_lookback_offset_ms := some r.2
        last_state_change := SpeechStateChange.started r.1.length })
    (find_lookback_start d1))
  (reset_onset_state
    { d with is_speaking := true, speech_sample_count := onset_count })

/-- The onset-accumulation block of `process` (not-speaking, candidate
frame): voiced first — confirming there returns early — then whisper. -/
def handleOnset (d : SpeechDetector) (is_voiced is_whisper : Bool)
    (len : ℕ) : SpeechDetector :=
  (fun d1 =>
    if is_voiced = true ∧ d1.voiced_config.onset_samples ≤ d1.voiced_onset_count
    then confirmSpeech d1 d1.voiced_onset_count
    else
      (fun d2 =>
        if is_whisper = true ∧ d2.is_speaking = false
            ∧ d2.whisper_config.onset_samples ≤ d2.whisper_onset_count then
          confirmSpeech d2 d2.whisper_onset_count
        else d2)
      (if is_whisper = true then
        (fun d2 =>
          if d2.is_pending_whisper = false then
            { d2 with is_pending_whisper := true, whisper_onset_count := len }
          else { d2 with whisper_onset_count := d2.whisper_onset_count + len })
        { d1 with whisper_grace_count := 0 }
      else d1))
  (if is_voiced = true then
    (fun dv =>
      if dv.is_pending_voiced = false then
        { dv with is_pending_voiced := true, voiced_onset_count := len }
      else { dv with voiced_onset_count := dv.voiced_onset_count + len })
    { d with voiced_grace_count := 0 }
  else d)

/-- The in-word-break block of the candidate-while-speaking branch: emit the
word-break event if the gap length is in range, then leave the gap. -/
def wordBreakEndCheck (d : SpeechDetector) : SpeechDetector :=
  if d.in_word_break = true then
    (fun d1 => { d1 with in_word_break := false, word_break_sample_count := 0 })
      (if d.min_word_break_samples ≤ d.word_break_sample_count
          ∧ d.word_break_sample_count ≤ d.max_word_break_samples then
        { d with
          last_word_break_event := some
            { offset_ms := d.samples_to_ms d.word_break_start_speech_samples
              gap_duration_ms := d.samples_to_ms d.word_break_sample_count } }
      else d)
  else d

/-- The grace-period block of the non-candidate branch: bump each pending
mode's grace counter and drop the mode once grace is exhausted. -/
def graceStep (d : SpeechDetector) (len : ℕ) : SpeechDetector :=
  (fun d1 =>
    if d1.is_pending_whisper = true then
      (fun d2 =>
        if d1.onset_grace_samples ≤ d2.whisper_grace_count then
          { d2 with
            is_pending_whisper := false
            whisper_onset_count := 0
            whisper_grace_count := 0 }
        else d2)
      { d1 with whisper_grace_count := d1.whisper_grace_count + len }
    else d1)
  (if d.is_pending_voiced = true then
    (fun d2 =>
      if d.onset_grace_samples ≤ d2.voiced_grace_count then
        { d2 with
          is_pending_voiced := false
          voiced_onset_count := 0
          voiced_grace_count := 0 }
      else d2)
    { d with voiced_grace_count := d.voiced_grace_count + len }
  else d)

/-- The word-break detection block of the non-candidate-while-speaking
branch. -/
def wordBreakDetect (d : SpeechDetector) (rms : ℚ) (len : ℕ) : SpeechDetector :=
  if 0 < d.get_recent_speech_amplitude
      ∧ rms < d.get_recent_speech_amplitude * d.word_break_threshold_ratio then
    (fun d1 =>
      if d1.min_word_break_samples ≤ d1.word_break_sample_count
          ∧ d1.word_break_sample_count ≤ d1.max_word_break_samples then
        { d1 with last_is_word_break := true }
      else d1)
    (if d.in_word_break = false then
      { d with
        in_word_break := true
        word_break_sample_count := len
        word_break_start_speech_samples := d.speech_sample_count }
    else { d with word_break_sample_count := d.word_break_sample_count + len })
  else d

/-- The hold-time check of the non-candidate-while-speaking branch: once the
accumulated silence reaches `hold_samples`, emit `Ended{duration_ms}` (the
duration from the speech counter), clear speaking and the counter, and reset
the word-break sub-state. -/
def holdCheck (d : SpeechDetector) : SpeechDetector :=
  if d.hold_samples ≤ d.silence_sample_count then
    { reset_word_break_state
        { d with is_speaking := false, speech_sample_count := 0 } with
      last_state_change :=
        SpeechStateChange.ended (d.samples_to_ms d.speech_sample_count) }
  else d

/-- The body of `process` after initialization, on the computed features. -/
def processCore (d : SpeechDetector) (f : ℚ × ℚ × ℚ) (len : ℕ) :
    SpeechDetector :=
  (fun d0 =>
    if d.last_is_transient = true ∧ d0.is_speaking = false then d0
    else
      if matchesMode d.voiced_config f.1 f.2.1 f.2.2
          ∨ matchesMode d.whisper_config f.1 f.2.1 f.2.2 then
        (fun d1 =>
          if d1.is_speaking = true then
            wordBreakEndCheck
              (update_speech_amplitude_average
                { d1 with speech_sample_count := d1.speech_sample_count + len }
                f.1 len)
          else
            handleOnset d1
              (decide (matchesMode d.voiced_config f.1 f.2.1 f.2.2))
              (decide (matchesMode d.whisper_config f.1 f.2.1 f.2.2)) len)
        { d0 with silence_sample_count := 0 }
      else
        (fun d1 =>
          if d1.is_speaking = true then
            holdCheck
              (wordBreakDetect
                { d1 with
                  silence_sample_count := d1.silence_sample_count + len }
                f.1 len)
          else d1)
        (graceStep d0 len))
  (if d.last_is_transient = true then reset_onset_state d else d)

/-- `SpeechDetector::process`. -/
def process (sqrtA : ℚ → ℚ) (d : SpeechDetector) (samples : List ℚ) :
    SpeechDetector :=
  (fun d1 =>
    if d1.initialized = false then { d1 with initialized := true }
    else processCore d1 (frameFeatures sqrtA d samples) samples.length)
  (prepareFrame sqrtA d samples)

/-- The per-call state invariant of the claim. -/
def DetectorInv (d : SpeechDetector) : Prop :=
  (d.is_speaking = false → d.speech_sample_count = 0)
  ∧ (d.is_speaking = true →
      d.is_pending_voiced = false ∧ d.is_pending_whisper = false)

/-- The chunk boundaries `(chunk_start, pos)` visited by the backward scan,
in scan order (from the end of the buffer towards its start, 128 samples at a
time, the last chunk possibly shorter); structurally recursive on a fuel that
bounds the iteration count, like `lookbackScanAux`. -/
def scanChunksAux : ℕ → ℕ → List (ℕ × ℕ)
  | 0, _ => []
  | fuel + 1, pos =>
    if pos = 0 then [] else (pos - 128, pos) :: scanChunksAux fuel (pos - 128)

/-- The chunk boundaries visited by the backward scan started at `pos`. -/
def scanChunks (pos : ℕ) : List (ℕ × ℕ) := scanChunksAux pos pos

/-- A chunk is "above threshold" when its peak absolute sample reaches the
lookback threshold. -/
def chunkAbove (buffer : List ℚ) (c : ℕ × ℕ) : Prop :=
  peakAboveLookbackThreshold (chunkPeak ((buffer.drop c.1).take (c.2 - c.1)))

instance (buffer : List ℚ) (c : ℕ × ℕ) : Decidable (chunkAbove buffer c) := by
  unfold chunkAbove
  infer_instance

/-- The scan loop, rephrased as a fold over the explicit chunk list. -/
def chunkFold (buffer : List ℚ) (len : ℕ) : List (ℕ × ℕ) → ℕ → ℕ
  | [], fa => fa
  | c :: rest, fa =>
      if chunkAbove buffer c then chunkFold buffer len rest c.1
      else if fa < len then fa
      else chunkFold buffer len rest fa

/-- The claim-side description of the scan result: walk the chunks backwards,
skip the below-threshold chunks, then follow the contiguous run of
above-threshold chunks (stopping at the first below-threshold chunk after an
above-threshold one was seen); the recorded index is the start of the
earliest chunk of that run — `buffer.length` when no above-threshold chunk is
reached. -/
def specFirstAbove (buffer : List ℚ) : ℕ :=
  ((((scanChunks buffer.length).dropWhile
      (fun c => ! decide (chunkAbove buffer c))).takeWhile
      (fun c => decide (chunkAbove buffer c))).map Prod.fst).getLastD
    buffer.length

end SpeechDetector

/-! ## Theorems -/

namespace SegmentRingBuffer

lemma write_capacity (rb : SegmentRingBuffer) (L : List ℚ) :
    (rb.write L).capacity = rb.capacity := by
  induction L generalizing rb with
  | nil => rfl
  | cons s t ih => simpa [write, write1, List.foldl] using ih (rb.write1 s)

lemma write_buffer_length (rb : SegmentRingBuffer) (L : List ℚ) :
    (rb.write L).buffer.length = rb.buffer.length := by
  induction L generalizing rb with
  | nil => rfl
  | cons s t ih =>
    have h := ih (rb.write1 s)
    simpa [write, write1, List.foldl] using h

lemma write_write_pos (rb : SegmentRingBuffer) (L : List ℚ)
    (hp : rb.write_pos < rb.capacity) :
    (rb.write L).write_pos = (rb.write_pos + L.length) % rb.capacity := by
  induction L generalizing rb with
  | nil =>
    simp [write, Nat.mod_eq_of_lt hp]
  | cons s t ih =>
    have hC : 0 < rb.capacity := Nat.pos_of_ne_zero (by omega)
    have hp1 : (rb.write1 s).write_pos < (rb.write1 s).capacity :=
      Nat.mod_lt _ hC
    have h := ih (rb.write1 s) hp1
    have hmod : ((rb.write_pos + 1) % rb.capacity + t.length) % rb.capacity
        = (rb.write_pos + 1 + t.length) % rb.capacity :=
      Nat.ModEq.add_right t.length (Nat.mod_modEq (rb.write_pos + 1) rb.capacity)
    have hw : rb.write (s :: t) = (rb.write1 s).write t := by
      simp [write, List.foldl]
    rw [hw, h]
    show ((rb.write_pos + 1) % rb.capacity + t.length) % rb.capacity
        = (rb.write_pos + (t.length + 1)) % rb.capacity
    rw [hmod]
    ring_nf

lemma getD_set_ne {l : List ℚ} {i j : ℕ} (h : i ≠ j) (a : ℚ) :
    (l.set i a).getD j 0 = l.getD j 0 := by
  simp [List.getD_eq_getElem?_getD, List.getElem?_set_ne h]

lemma getD_set_self {l : List ℚ} {i : ℕ} (h : i < l.length) (a : ℚ) :
    (l.set i a).getD i 0 = a := by
  simp [List.getD_eq_getElem?_getD, List.getElem?_set_self h]

/-- Positions not written by `write` keep their contents. -/
lemma write_getD_untouched (rb : SegmentRingBuffer) (L : List ℚ) (q : ℕ)
    (hp : rb.write_pos < rb.capacity)
    (h : ∀ j < L.length, (rb.write_pos + j) % rb.capacity ≠ q) :
    (rb.write L).buffer.getD q 0 = rb.buffer.getD q 0 := by
  induction L generalizing rb with
  | nil => rfl
  | cons s t ih =>
    have hC : 0 < rb.capacity := Nat.pos_of_ne_zero (by omega)
    have hw : rb.write (s :: t) = (rb.write1 s).write t := by
      simp [write, List.foldl]
    have hp1 : (rb.write1 s).write_pos < (rb.write1 s).capacity := Nat.mod_lt _ hC
    have h1 : ∀ j < t.length,
        ((rb.write1 s).write_pos + j) % (rb.write1 s).capacity ≠ q := by
      intro j hj
      have : ((rb.write_pos + 1) % rb.capacity + j) % rb.capacity
          = (rb.write_pos + (j + 1)) % rb.capacity := by
        have := Nat.ModEq.add_right j (Nat.mod_modEq (rb.write_pos + 1) rb.capacity)
        calc ((rb.write_pos + 1) % rb.capacity + j) % rb.capacity
            = (rb.write_pos + 1 + j) % rb.capacity := this
          _ = (rb.write_pos + (j + 1)) % rb.capacity := by ring_nf
      show ((rb.write_pos + 1) % rb.capacity + j) % rb.capacity ≠ q
      rw [this]
      exact h (j + 1) (by simpa using Nat.succ_lt_succ hj)
    rw [hw, ih (rb.write1 s) hp1 h1]
    have hq0 : rb.write_pos ≠ q := by
      have := h 0 (by simp)
      simpa [Nat.mod_eq_of_lt hp] using this
    exact getD_set_ne hq0 s

/-- Contents after `write`: position `(write_pos + i) % capacity` holds `L[i]`. -/
lemma write_getD (rb : SegmentRingBuffer) (L : List ℚ) (i : ℕ)
    (hp : rb.write_pos < rb.capacity) (hlen : rb.buffer.length = rb.capacity)
    (hi : i < L.length) (hL : L.length ≤ rb.capacity) :
    (rb.write L).buffer.getD ((rb.write_pos + i) % rb.capacity) 0 = L.getD i 0 := by
  induction L generalizing rb i with
  | nil => simp at hi
  | cons s t ih =>
    have hC : 0 < rb.capacity := Nat.pos_of_ne_zero (by omega)
    have hw : rb.write (s :: t) = (rb.write1 s).write t := by
      simp [write, List.foldl]
    have hp1 : (rb.write1 s).write_pos < (rb.write1 s).capacity := Nat.mod_lt _ hC
    cases i with
    | zero =>
      -- position `write_pos` receives `s`, and is untouched by the writes of `t`
      have hpos : (rb.write_pos + 0) % rb.capacity = rb.write_pos := by
        simpa using Nat.mod_eq_of_lt hp
      have huntouched : ∀ j < t.length,
          ((rb.write1 s).write_pos + j) % (rb.write1 s).capacity ≠ rb.write_pos := by
        intro j hj
        show ((rb.write_pos + 1) % rb.capacity + j) % rb.capacity ≠ rb.write_pos
        have heq : ((rb.write_pos + 1) % rb.capacity + j) % rb.capacity
            = (rb.write_pos + (1 + j)) % rb.capacity := by
          have := Nat.ModEq.add_right j (Nat.mod_modEq (rb.write_pos + 1) rb.capacity)
          calc ((rb.write_pos + 1) % rb.capacity + j) % rb.capacity
              = (rb.write_pos + 1 + j) % rb.capacity := this
            _ = (rb.write_pos + (1 + j)) % rb.capacity := by ring_nf
        rw [heq]
        intro hcontra
        -- `(p + (1+j)) % C = p` with `0 < 1+j < C` is impossible
        have h1j : 1 + j < rb.capacity := by
          have : t.length ≤ rb.capacity - 1 := by
            simp only [List.length_cons] at hL; omega
          omega
        rcases Nat.lt_or_ge (rb.write_pos + (1 + j)) rb.capacity with hlt | hge
        · rw [Nat.mod_eq_of_lt hlt] at hcontra; omega
        · have h2 : rb.write_pos + (1 + j) - rb.capacity < rb.capacity := by omega
          have : (rb.write_pos + (1 + j)) % rb.capacity
              = rb.write_pos + (1 + j) - rb.capacity := by
            rw [Nat.mod_eq_sub_mod hge, Nat.mod_eq_of_lt h2]
          rw [this] at hcontra; omega
      rw [hw, hpos, write_getD_untouched _ _ _ hp1 huntouched]
      show ((rb.buffer.set rb.write_pos s).getD rb.write_pos 0) = _
      rw [getD_set_self (by omega) s]
      rfl
    | succ i =>
      have heq : (rb.write_pos + (i + 1)) % rb.capacity
          = ((rb.write1 s).write_pos + i) % (rb.write1 s).capacity := by
        show _ = ((rb.write_pos + 1) % rb.capacity + i) % rb.capacity
        have := Nat.ModEq.add_right i (Nat.mod_modEq (rb.write_pos + 1) rb.capacity)
        calc (rb.write_pos + (i + 1)) % rb.capacity
            = (rb.write_pos + 1 + i) % rb.capacity := by ring_nf
          _ = ((rb.write_pos + 1) % rb.capacity + i) % rb.capacity := this.symm
      have hlen1 : (rb.write1 s).buffer.length = (rb.write1 s).capacity := by
        show (rb.buffer.set rb.write_pos s).length = rb.capacity
        simpa using hlen
      have hi1 : i < t.length := by simpa using Nat.lt_of_succ_lt_succ hi
      have hL1 : t.length ≤ (rb.write1 s).capacity := by
        show t.length ≤ rb.capacity
        simp only [List.length_cons] at hL; omega
      rw [hw, heq, ih (rb.write1 s) i hp1 hlen1 hi1 hL1]
      rfl

/-- `extract_segment_to` as a map over ring indices. -/
lemma extract_eq_map (rb : SegmentRingBuffer) (s e : ℕ)
    (hlen : rb.buffer.length = rb.capacity) (hs : s ≤ rb.capacity)
    (he : e ≤ rb.capacity) :
    rb.extract_segment_to s e =
      (List.range (rb.seg_len s e)).map
        (fun i => rb.buffer.getD ((s + i) % rb.capacity) 0) := by
  unfold extract_segment_to seg_len
  by_cases hse : s ≤ e
  · simp only [if_pos hse]
    apply List.ext_getElem
    · simp [hlen]; omega
    · intro i h1 h2
      have hi : i < e - s := by simpa using h2
      have hsi : s + i < rb.buffer.length := by omega
      have hmod : (s + i) % rb.capacity = s + i := Nat.mod_eq_of_lt (by omega)
      simp only [List.getElem_take, List.getElem_drop, List.getElem_map,
        List.getElem_range, hmod, List.getD_eq_getElem?_getD,
        List.getElem?_eq_getElem hsi]
      rfl
  · simp only [if_neg hse]
    have hes : e < s := by omega
    apply List.ext_getElem
    · simp [hlen]; omega
    · intro i h1 h2
      have hi : i < rb.capacity - s + e := by simpa using h2
      simp only [List.getElem_map, List.getElem_range]
      rcases Nat.lt_or_ge i (rb.capacity - s) with hcase | hcase
      · have hsi : s + i < rb.buffer.length := by omega
        have hmod : (s + i) % rb.capacity = s + i := Nat.mod_eq_of_lt (by omega)
        rw [List.getElem_append_left (by simp [hlen]; omega)]
        simp only [List.getElem_drop, hmod, List.getD_eq_getElem?_getD,
          List.getElem?_eq_getElem hsi]
        rfl
      · have hdroplen : (rb.buffer.drop s).length = rb.capacity - s := by
          simp [hlen]
        have hj : i - (rb.capacity - s) < e := by omega
        have hmod : (s + i) % rb.capacity = i - (rb.capacity - s) := by
          have h1' : s + i ≥ rb.capacity := by omega
          have h2' : s + i - rb.capacity < rb.capacity := by omega
          rw [Nat.mod_eq_sub_mod h1', Nat.mod_eq_of_lt h2']
          omega
        rw [List.getElem_append_right (by omega)]
        have hjlen : i - (rb.buffer.drop s).length < rb.buffer.length := by
          rw [hdroplen]; omega
        simp only [List.getElem_take, hdroplen, hmod, List.getD_eq_getElem?_getD]
        have : i - (rb.capacity - s) < rb.buffer.length := by omega
        rw [List.getElem?_eq_getElem this]
        rfl

/-- Writing a concatenation is writing the pieces in order. -/
lemma write_append (rb : SegmentRingBuffer) (a b : List ℚ) :
    rb.write (a ++ b) = (rb.write a).write b :=
  List.foldl_append _ _ _ _

/-- The length formula for the span from the pre-write position to the
post-write position, when fewer than `capacity` samples were written. -/
lemma seg_len_write (p W C : ℕ) (hp : p < C) (hW : W < C) :
    (if p ≤ (p + W) % C then (p + W) % C - p else C - p + (p + W) % C) = W := by
  rcases Nat.lt_or_ge (p + W) C with hlt | hge
  · rw [Nat.mod_eq_of_lt hlt]
    simp [Nat.le_add_right]
  · have h2 : p + W - C < C := by omega
    have hmod : (p + W) % C = p + W - C := by
      rw [Nat.mod_eq_sub_mod hge, Nat.mod_eq_of_lt h2]
    rw [hmod]
    have : ¬ p ≤ p + W - C := by omega
    rw [if_neg this]
    omega

/-- The claim's start expression `write_pos − W (mod capacity)` recovers the
pre-write position. -/
lemma start_expr (p W C : ℕ) (hp : p < C) (hW : W < C) :
    ((p + W) % C + C - W % C) % C = p := by
  have hWC : W % C = W := Nat.mod_eq_of_lt hW
  rw [hWC]
  rcases Nat.lt_or_ge (p + W) C with hlt | hge
  · rw [Nat.mod_eq_of_lt hlt]
    have : p + W + C - W = p + C := by omega
    rw [this, Nat.add_mod_right, Nat.mod_eq_of_lt hp]
  · have h2 : p + W - C < C := by omega
    have hmod : (p + W) % C = p + W - C := by
      rw [Nat.mod_eq_sub_mod hge, Nat.mod_eq_of_lt h2]
    rw [hmod]
    have : p + W - C + C - W = p := by omega
    rw [this, Nat.mod_eq_of_lt hp]

/-- After writing `L` (with `L.length < capacity`), extracting from the
pre-write position up to the new write position returns exactly `L`. -/
lemma write_extract (rb : SegmentRingBuffer) (L : List ℚ)
    (hlen : rb.buffer.length = rb.capacity) (hp : rb.write_pos < rb.capacity)
    (hL : L.length < rb.capacity) :
    (rb.write L).extract_segment_to rb.write_pos (rb.write L).write_pos = L := by
  have hC : 0 < rb.capacity := by omega
  have hcap : (rb.write L).capacity = rb.capacity := write_capacity rb L
  have hlen2 : (rb.write L).buffer.length = (rb.write L).capacity := by
    rw [hcap, write_buffer_length, hlen]
  have hwp : (rb.write L).write_pos = (rb.write_pos + L.length) % rb.capacity :=
    write_write_pos rb L hp
  have he : (rb.write L).write_pos ≤ (rb.write L).capacity := by
    rw [hwp, hcap]
    exact le_of_lt (Nat.mod_lt _ hC)
  have hsl : (rb.write L).seg_len rb.write_pos (rb.write L).write_pos = L.length := by
    unfold seg_len
    rw [hwp, hcap]
    exact seg_len_write rb.write_pos L.length rb.capacity hp hL
  rw [extract_eq_map _ _ _ hlen2 (by rw [hcap]; omega) he, hsl]
  apply List.ext_getElem
  · simp
  · intro i h1 h2
    have hi : i < L.length := by simpa using h1
    have hget := write_getD rb L i hp hlen hi (le_of_lt hL)
    simp only [List.getElem_map, List.getElem_range]
    rw [hcap, hget]
    simp [List.getD_eq_getElem?_getD, List.getElem?_eq_getElem hi]

/-- C1: for any sequence of writes whose lengths sum to `W < capacity`,
`extract_segment` at `write_pos − W (mod capacity)` returns exactly the `W`
most recently written samples in write order; and in general
`extract_segment_to` returns exactly `seg_len` samples — the arithmetic of
`segment_length` applied to the pair of indices. -/
theorem segment_ring_extract_correct (rb : SegmentRingBuffer) (ws : List (List ℚ))
    (hlen : rb.buffer.length = rb.capacity) (hp : rb.write_pos < rb.capacity)
    (hW : (ws.map List.length).sum < rb.capacity) :
    (rb.write ws.flatten).extract_segment
        (((rb.write ws.flatten).write_pos + rb.capacity
          - (ws.map List.length).sum % rb.capacity) % rb.capacity)
      = ws.flatten
    ∧ (∀ s e, s ≤ rb.capacity → e ≤ rb.capacity →
        (rb.extract_segment_to s e).length = rb.seg_len s e)
    ∧ (∀ s, s ≤ rb.capacity →
        (rb.extract_segment s).length = rb.segment_length s) := by
  have hC : 0 < rb.capacity := by omega
  have hjoin : (ws.flatten).length = (ws.map List.length).sum := by
    simp [List.length_flatten]
  refine ⟨?_, ?_, ?_⟩
  · have hWlen : (ws.flatten).length < rb.capacity := by rw [hjoin]; exact hW
    have hwp : (rb.write ws.flatten).write_pos
        = (rb.write_pos + (ws.flatten).length) % rb.capacity :=
      write_write_pos rb ws.flatten hp
    have hstart : ((rb.write ws.flatten).write_pos + rb.capacity
        - (ws.map List.length).sum % rb.capacity) % rb.capacity = rb.write_pos := by
      rw [hwp, ← hjoin]
      exact start_expr rb.write_pos (ws.flatten).length rb.capacity hp hWlen
    rw [extract_segment, hstart]
    exact write_extract rb ws.flatten hlen hp hWlen
  · intro s e hs he
    rw [extract_eq_map rb s e hlen hs he]
    simp
  · intro s hs
    have := extract_eq_map rb s rb.write_pos hlen hs (le_of_lt hp)
    rw [extract_segment, this]
    simp [seg_len, segment_length]

/-- Witness for C1: a capacity-5 ring, pre-filled past the seam, write lengths
summing to 3; extraction crosses the wrap seam and recovers the writes. -/
theorem segment_ring_extract_correct_witness :
    ((((SegmentRingBuffer.new 5).write [9, 8, 7]).write
        ([[1, 2], [3]] : List (List ℚ)).flatten).extract_segment
      (((((SegmentRingBuffer.new 5).write [9, 8, 7]).write
          ([[1, 2], [3]] : List (List ℚ)).flatten).write_pos + 5
        - (([[1, 2], [3]] : List (List ℚ)).map List.length).sum % 5) % 5))
      = ([1, 2, 3] : List ℚ) := by
  have h := segment_ring_extract_correct ((SegmentRingBuffer.new 5).write [9, 8, 7])
    [[1, 2], [3]] (by decide) (by decide) (by decide)
  exact h.1

end SegmentRingBuffer

lemma sumSquares_replicate (n : ℕ) (x : ℚ) :
    sumSquares (List.replicate n x) = n * (x * x) := by
  simp [sumSquares, List.map_replicate, List.sum_replicate, nsmul_eq_mul]

namespace TranscribeState

/-- C4 (amended): a segment whose code-side duration
`len·1000/sample_rate` is under `MIN_SEGMENT_DURATION_MS`, or whose RMS is
under `0.01` (equivalently, sum of squares `· 10000 <` length), is never
placed on the transcription queue. -/
theorem queue_segment_rejects_invalid (ts : TranscribeState) (samples : List ℚ)
    (h : samples.length * 1000 / ts.sample_rate < MIN_SEGMENT_DURATION_MS
        ∨ sumSquares samples * 10000 < (samples.length : ℚ)) :
    (ts.queue_segment samples).transcription_queue = ts.transcription_queue := by
  unfold queue_segment
  by_cases hemp : samples.isEmpty
  · rw [if_pos hemp]
  · rw [if_neg hemp]
    have hvalid : ts.is_segment_valid_for_transcription samples = false := by
      unfold is_segment_valid_for_transcription
      rw [if_neg hemp]
      rcases h with h | h
      · rw [if_pos h]
      · by_cases hdur :
          samples.length * 1000 / ts.sample_rate < MIN_SEGMENT_DURATION_MS
        · rw [if_pos hdur]
        · rw [if_neg hdur, if_pos h]
    rw [if_pos hvalid]

/-- Witness for C4: a 300 ms (by the code's measure) segment at a 10 Hz
sample rate is not enqueued. -/
theorem queue_segment_rejects_invalid_witness :
    (TranscribeState.queue_segment
      { ring_buffer := SegmentRingBuffer.new 4
        is_active := true, in_speech := true, segment_start_idx := 0
        sample_rate := 10, channels := 1, transcription_queue := []
        segment_sample_count := 0, seeking_word_break := false
        word_break_seek_start_samples := 0, lookback_sample_count := 0 }
      [1, 1, 1]).transcription_queue = [] :=
  queue_segment_rejects_invalid _ [1, 1, 1] (Or.inl (by norm_num [MIN_SEGMENT_DURATION_MS]))

/-- Counterexample for C4 as stated: with the configured `channels = 2`, a
stereo segment whose duration **in audio time** (length over
`sample_rate · channels`) is 300 ms — under the claimed 500 ms minimum — and
whose RMS is 0.5 **is** enqueued, because the code divides only by
`sample_rate`, not by the channel count. -/
theorem queue_segment_channels_counterexample :
    (List.replicate 28800 ((1 : ℚ)/2)).length * 1000 / (48000 * 2) = 300
    ∧ 300 < MIN_SEGMENT_DURATION_MS
    ∧ (TranscribeState.queue_segment
        { ring_buffer := SegmentRingBuffer.new 4
          is_active := true, in_speech := true, segment_start_idx := 0
          sample_rate := 48000, channels := 2, transcription_queue := []
          segment_sample_count := 0, seeking_word_break := false
          word_break_seek_start_samples := 0, lookback_sample_count := 0 }
        (List.replicate 28800 ((1 : ℚ)/2))).transcription_queue
      = [{ samples := List.replicate 28800 ((1 : ℚ)/2)
           sample_rate := 48000, channels := 2 }] := by
  refine ⟨by norm_num, by norm_num [MIN_SEGMENT_DURATION_MS], ?_⟩
  have hemp : (List.replicate 28800 ((1 : ℚ)/2)).isEmpty = false := by
    simp [List.isEmpty_iff]
  have hvalid : TranscribeState.is_segment_valid_for_transcription
      { ring_buffer := SegmentRingBuffer.new 4
        is_active := true, in_speech := true, segment_start_idx := 0
        sample_rate := 48000, channels := 2, transcription_queue := []
        segment_sample_count := 0, seeking_word_break := false
        word_break_seek_start_samples := 0, lookback_sample_count := 0 }
      (List.replicate 28800 ((1 : ℚ)/2)) = true := by
    unfold is_segment_valid_for_transcription
    rw [if_neg (by simp [hemp])]
    rw [if_neg (by norm_num [MIN_SEGMENT_DURATION_MS])]
    rw [if_neg (by rw [sumSquares_replicate]; norm_num)]
  unfold queue_segment
  rw [if_neg (by rw [hemp]; exact Bool.false_ne_true)]
  rw [if_neg (by rw [hvalid]; exact fun h => Bool.noConfusion h)]
  rw [enqueue, if_pos (by simp [QUEUE_CAPACITY])]
  rfl

/-- C5: `on_word_break` acts only when `in_speech` and `seeking_word_break`
both hold; it cuts at `segment_start_idx + min(lookback + samples(offset_ms +
gap_ms/2), lookback + segment_samples)` mod capacity (which equals `write_pos`
— the clamp — under the in-speech ring invariant when the midpoint exceeds the
segment), enqueues the extracted segment, and continues in speech with
`segment_start_idx = cut`, `lookback = 0`, `segment_samples` decreased by
`samples(offset_ms + gap_ms/2)` saturating at 0, `seeking_word_break` cleared. -/
theorem on_word_break_cut (ts : TranscribeState) (offset_ms gap_ms : ℕ) :
    (ts.in_speech = false ∨ ts.seeking_word_break = false →
        ts.on_word_break offset_ms gap_ms = (ts, none))
    ∧ (ts.is_active = true → ts.in_speech = true → ts.seeking_word_break = true →
        ∀ seg, (ts.on_word_break offset_ms gap_ms).2 = some seg →
          ((ts.on_word_break offset_ms gap_ms).1.segment_start_idx
              = (ts.segment_start_idx
                  + min (ts.lookback_sample_count
                      + ts.ms_to_samples (offset_ms + gap_ms / 2))
                    (ts.lookback_sample_count + ts.segment_sample_count))
                % ts.ring_buffer.capacity)
          ∧ ((ts.segment_start_idx + ts.lookback_sample_count
                  + ts.segment_sample_count) % ts.ring_buffer.capacity
                = ts.ring_buffer.write_pos →
              ts.segment_sample_count ≤ ts.ms_to_samples (offset_ms + gap_ms / 2) →
              (ts.on_word_break offset_ms gap_ms).1.segment_start_idx
                = ts.ring_buffer.write_pos)
          ∧ seg = ts.ring_buffer.extract_segment_to ts.segment_start_idx
              ((ts.on_word_break offset_ms gap_ms).1.segment_start_idx)
          ∧ (ts.on_word_break offset_ms gap_ms).1.transcription_queue
              = (ts.queue_segment seg).transcription_queue
          ∧ (ts.on_word_break offset_ms gap_ms).1.in_speech = true
          ∧ (ts.on_word_break offset_ms gap_ms).1.lookback_sample_count = 0
          ∧ (ts.on_word_break offset_ms gap_ms).1.segment_sample_count
              = ts.segment_sample_count - ts.ms_to_samples (offset_ms + gap_ms / 2)
          ∧ (ts.on_word_break offset_ms gap_ms).1.seeking_word_break = false) := by
  constructor
  · intro h
    unfold on_word_break
    rw [if_pos (by tauto)]
  · intro ha hi hsk seg hseg
    have hguard : ¬(ts.is_active = false ∨ ts.in_speech = false
        ∨ ts.seeking_word_break = false) := by
      simp [ha, hi, hsk]
    unfold on_word_break at hseg ⊢
    rw [if_neg hguard] at hseg ⊢
    by_cases h0 : min (ts.lookback_sample_count
        + ts.ms_to_samples (offset_ms + gap_ms / 2))
        (ts.lookback_sample_count + ts.segment_sample_count) = 0
    · rw [if_pos h0] at hseg
      simp at hseg
    · rw [if_neg h0] at hseg ⊢
      by_cases hemp : (ts.ring_buffer.extract_segment_to ts.segment_start_idx
          ((ts.segment_start_idx
            + min (ts.lookback_sample_count
                + ts.ms_to_samples (offset_ms + gap_ms / 2))
              (ts.lookback_sample_count + ts.segment_sample_count))
            % ts.ring_buffer.capacity)).isEmpty
      · rw [if_pos hemp] at hseg
        simp at hseg
      · rw [if_neg hemp] at hseg ⊢
        simp only at hseg
        have hsegeq : seg = ts.ring_buffer.extract_segment_to ts.segment_start_idx
            ((ts.segment_start_idx
              + min (ts.lookback_sample_count
                  + ts.ms_to_samples (offset_ms + gap_ms / 2))
                (ts.lookback_sample_count + ts.segment_sample_count))
              % ts.ring_buffer.capacity) := by
          exact (Option.some.inj hseg).symm
        refine ⟨by simp, ?_, ?_, ?_, ?_, ?_, ?_, ?_⟩
        · intro hinv hle
          have hmin : min (ts.lookback_sample_count
              + ts.ms_to_samples (offset_ms + gap_ms / 2))
              (ts.lookback_sample_count + ts.segment_sample_count)
              = ts.lookback_sample_count + ts.segment_sample_count := by
            omega
          simp only [hmin]
          rw [← hinv]
          congr 1
          omega
        · simpa using hsegeq
        · simp [hsegeq, queue_segment]
        · simp only [queue_segment]
          split_ifs <;> simp [hi]
        · simp
        · simp
        · simp

/-- Witness for C5: a concrete active, in-speech, word-break-seeking state on
a capacity-10 ring; the cut lands at the ring write position and the state
continues in speech with the counters updated. -/
theorem on_word_break_cut_witness :
    (TranscribeState.on_word_break
      { ring_buffer :=
          { buffer := [1, 2, 3, 4, 5, 6, 7, 8, 9, 10]
            write_pos := 6, capacity := 10, total_written := 0 }
        is_active := true, in_speech := true, segment_start_idx := 2
        sample_rate := 1000, channels := 1, transcription_queue := []
        segment_sample_count := 3, seeking_word_break := true
        word_break_seek_start_samples := 0, lookback_sample_count := 1 }
      2 2).1.seeking_word_break = false :=
  ((TranscribeState.on_word_break_cut
    { ring_buffer :=
        { buffer := [1, 2, 3, 4, 5, 6, 7, 8, 9, 10]
          write_pos := 6, capacity := 10, total_written := 0 }
      is_active := true, in_speech := true, segment_start_idx := 2
      sample_rate := 1000, channels := 1, transcription_queue := []
      segment_sample_count := 3, seeking_word_break := true
      word_break_seek_start_samples := 0, lookback_sample_count := 1 }
    2 2).2 rfl rfl rfl [3, 4, 5, 6] (by decide)).2.2.2.2.2.2.2

end TranscribeState

namespace AudioMixer

lemma drainRender_fields (m : AudioMixer) :
    (drainRender m).capture_buffer = m.capture_buffer
    ∧ (drainRender m).render_mix_buffer = m.render_mix_buffer
    ∧ (drainRender m).captures_processed = m.captures_processed
    ∧ (drainRender m).channels = m.channels
    ∧ (drainRender m).num_streams = m.num_streams
    ∧ (drainRender m).hasAec = m.hasAec
    ∧ (drainRender m).outputs = m.outputs := by
  induction m using drainRender.induct with
  | case1 m h ih => rw [drainRender, dif_pos h]; exact ih
  | case2 m h => rw [drainRender, dif_neg h]; exact ⟨rfl, rfl, rfl, rfl, rfl, rfl, rfl⟩

lemma drainRender_conserve (m : AudioMixer) :
    (drainRender m).aec_render_frames * (AEC_FRAME_SAMPLES * m.channels)
      + (drainRender m).render_buffer.length
    = m.aec_render_frames * (AEC_FRAME_SAMPLES * m.channels)
      + m.render_buffer.length := by
  induction m using drainRender.induct with
  | case1 m h ih =>
    rw [drainRender, dif_pos h]
    rw [show ({ m with
        render_buffer := m.render_buffer.drop (AEC_FRAME_SAMPLES * m.channels)
        aec_render_frames := m.aec_render_frames + 1 } : AudioMixer).channels
      = m.channels from rfl] at ih
    rw [ih]
    simp only [List.length_drop, Nat.succ_mul]
    omega
  | case2 m h => rw [drainRender, dif_neg h]

lemma drainRender_render_lt (m : AudioMixer)
    (h0 : 0 < AEC_FRAME_SAMPLES * m.channels) :
    (drainRender m).render_buffer.length < AEC_FRAME_SAMPLES * m.channels := by
  induction m using drainRender.induct with
  | case1 m h ih => rw [drainRender, dif_pos h]; exact ih h0
  | case2 m h =>
    rw [drainRender, dif_neg h]
    omega

lemma processCapture_fields (c : ℚ → ℚ → ℚ) (a : List ℚ → List ℚ)
    (ae : Bool) (md : RecordingMode) (m : AudioMixer) :
    (processCapture c a ae md m).render_buffer = m.render_buffer
    ∧ (processCapture c a ae md m).aec_render_frames = m.aec_render_frames
    ∧ (processCapture c a ae md m).channels = m.channels
    ∧ (processCapture c a ae md m).num_streams = m.num_streams
    ∧ (processCapture c a ae md m).hasAec = m.hasAec := by
  induction m using processCapture.induct c a ae md with
  | case1 m h ih => rw [processCapture.eq_def, dif_pos h]; exact ih
  | case2 m h =>
    rw [processCapture.eq_def, dif_neg h]; exact ⟨rfl, rfl, rfl, rfl, rfl⟩

lemma processCapture_conserve (c : ℚ → ℚ → ℚ) (a : List ℚ → List ℚ)
    (ae : Bool) (md : RecordingMode) (m : AudioMixer) :
    (processCapture c a ae md m).captures_processed
        * (AEC_FRAME_SAMPLES * m.channels)
      + (processCapture c a ae md m).render_mix_buffer.length
    = m.captures_processed * (AEC_FRAME_SAMPLES * m.channels)
      + m.render_mix_buffer.length := by
  induction m using processCapture.induct c a ae md with
  | case1 m h ih =>
    rw [processCapture.eq_def, dif_pos h]
    have h2 : (m.captures_processed + 1) * (AEC_FRAME_SAMPLES * m.channels)
        + (m.render_mix_buffer.drop (AEC_FRAME_SAMPLES * m.channels)).length
      = m.captures_processed * (AEC_FRAME_SAMPLES * m.channels)
        + m.render_mix_buffer.length := by
      simp only [List.length_drop, Nat.succ_mul]
      omega
    exact ih.trans h2
  | case2 m h => rw [processCapture.eq_def, dif_neg h]

lemma processCapture_outputs_extend (c : ℚ → ℚ → ℚ) (a : List ℚ → List ℚ)
    (ae : Bool) (md : RecordingMode) (m : AudioMixer) :
    ∃ t, (processCapture c a ae md m).outputs = m.outputs ++ t := by
  induction m using processCapture.induct c a ae md with
  | case1 m h ih =>
    rw [processCapture.eq_def, dif_pos h]
    obtain ⟨t, ht⟩ := ih
    exact ⟨_, by rw [ht, List.append_assoc]⟩
  | case2 m h =>
    rw [processCapture.eq_def, dif_neg h]
    exact ⟨[], by simp⟩

/-- `push_samples` preserves the mixer invariant in two-stream AEC mode. -/
lemma pushSamples_inv (c : ℚ → ℚ → ℚ) (a : List ℚ → List ℚ)
    (ae : Bool) (md : RecordingMode) (m : AudioMixer)
    (samples : List ℚ) (sink : Bool)
    (hA : m.hasAec = true) (hs : m.num_streams = 2) (hinv : MixerInv m) :
    MixerInv (pushSamples c a ae md m samples sink)
    ∧ (pushSamples c a ae md m samples sink).hasAec = true
    ∧ (pushSamples c a ae md m samples sink).num_streams = 2
    ∧ (pushSamples c a ae md m samples sink).channels = m.channels := by
  obtain ⟨hlt, heq⟩ := hinv
  have h0 : 0 < AEC_FRAME_SAMPLES * m.channels := by omega
  unfold pushSamples
  rw [if_neg (by omega)]
  by_cases hsink : sink = true
  · rw [if_pos hsink]
    set m1 : AudioMixer :=
      { m with
        render_buffer := m.render_buffer ++ samples,
        render_mix_buffer := m.render_mix_buffer ++ samples } with hm1
    have hfeed : feedRender m1 = drainRender m1 := by
      rw [feedRender, if_pos (by rw [hm1]; exact hA)]
    rw [hfeed]
    have hf := drainRender_fields m1
    have hcon := drainRender_conserve m1
    have hch : m1.channels = m.channels := rfl
    have hrlt := drainRender_render_lt m1 (by rw [hch]; exact h0)
    rw [hch] at hcon
    refine ⟨⟨?_, ?_⟩, ?_, ?_, ?_⟩
    · rw [hf.2.2.2.1]; exact hrlt
    · rw [hf.2.2.2.1, hch, hf.2.2.1, hf.2.1, hcon]
      show m.aec_render_frames * (AEC_FRAME_SAMPLES * m.channels)
            + (m.render_buffer ++ samples).length
          = m.captures_processed * (AEC_FRAME_SAMPLES * m.channels)
            + (m.render_mix_buffer ++ samples).length
      simp only [List.length_append]
      omega
    · rw [hf.2.2.2.2.2.1]; exact hA
    · rw [hf.2.2.2.2.1]; exact hs
    · rw [hf.2.2.2.1]
  · rw [if_neg hsink]
    set m2 : AudioMixer :=
      { m with capture_buffer := m.capture_buffer ++ samples } with hm2
    have hf := processCapture_fields c a ae md m2
    have hcon := processCapture_conserve c a ae md m2
    have hch : m2.channels = m.channels := rfl
    refine ⟨⟨?_, ?_⟩, ?_, ?_, ?_⟩
    · rw [hf.2.2.1, hf.1]; exact hlt
    · rw [hf.2.2.1, hf.1, hf.2.1, hcon]; exact heq
    · rw [hf.2.2.2.2]; exact hA
    · rw [hf.2.2.2.1]; exact hs
    · rw [hf.2.2.1]

/-- The invariant holds along any run from the freshly configured
two-stream mixer. -/
lemma runMixer_inv (c : ℚ → ℚ → ℚ) (a : List ℚ → List ℚ)
    (events : List AudioMixer.PushEvent) (m : AudioMixer)
    (hA : m.hasAec = true) (hs : m.num_streams = 2) (hinv : MixerInv m) :
    MixerInv (runMixer c a m events)
    ∧ (runMixer c a m events).hasAec = true
    ∧ (runMixer c a m events).num_streams = 2
    ∧ (runMixer c a m events).channels = m.channels := by
  induction events generalizing m with
  | nil => exact ⟨hinv, hA, hs, rfl⟩
  | cons ev t ih =>
    have hunf : runMixer c a m (ev :: t)
        = runMixer c a (pushSamples c a ev.aec_enabled ev.mode m ev.samples
            ev.is_sink_capture) t := rfl
    have hstep := pushSamples_inv c a ev.aec_enabled ev.mode m ev.samples
      ev.is_sink_capture hA hs hinv
    have hrest := ih (pushSamples c a ev.aec_enabled ev.mode m ev.samples
      ev.is_sink_capture) hstep.2.1 hstep.2.2.1 hstep.1
    rw [hunf]
    exact ⟨hrest.1, hrest.2.1, hrest.2.2.1, by rw [hrest.2.2.2, hstep.2.2.2]⟩

end AudioMixer

lemma drop_replicate (x : ℚ) : ∀ (n m : ℕ),
    (List.replicate m x).drop n = List.replicate (m - n) x := by
  intro n
  induction n with
  | zero => intro m; simp
  | succ n ih =>
    intro m
    cases m with
    | zero => simp
    | succ m =>
      rw [List.replicate_succ, List.drop_succ_cons, ih m]
      congr 1
      omega

lemma take_replicate (x : ℚ) : ∀ (n m : ℕ),
    (List.replicate m x).take n = List.replicate (min n m) x := by
  intro n
  induction n with
  | zero => intro m; simp
  | succ n ih =>
    intro m
    cases m with
    | zero => simp
    | succ m =>
      rw [List.replicate_succ, List.take_succ_cons, ih m, ← List.replicate_succ]
      congr 1
      omega

namespace AudioMixer

/-- C2: in two-stream AEC mode (an AEC instance present), after any sequence
of pushes, a further capture push can only leave the count of processed
capture frames at or below the count of render frames already handed to
`handle_render_frame` beforehand — i.e. when the k-th capture frame is
consumed, at least k render frames (so: the prior captures plus one) had
already been fed to the AEC render path. -/
theorem mixer_render_precedes_capture (ch : ℕ) (hch : 0 < ch)
    (combine : ℚ → ℚ → ℚ) (aecProcess : List ℚ → List ℚ)
    (events : List PushEvent) (ae : Bool) (md : RecordingMode)
    (samples : List ℚ) :
    (pushSamples combine aecProcess ae md
        (runMixer combine aecProcess (mixerTwoStream ch) events)
        samples false).captures_processed
      ≤ (runMixer combine aecProcess (mixerTwoStream ch) events).aec_render_frames := by
  have hinv0 : MixerInv (mixerTwoStream ch) := by
    constructor
    · show List.length ([] : List ℚ) < AEC_FRAME_SAMPLES * ch
      have : 0 < AEC_FRAME_SAMPLES * ch :=
        Nat.mul_pos (by norm_num [AEC_FRAME_SAMPLES]) hch
      simpa using this
    · rfl
  have hrun := runMixer_inv combine aecProcess events (mixerTwoStream ch)
    rfl rfl hinv0
  obtain ⟨⟨hlt, heq⟩, hA, hs, hchn⟩ := hrun
  set m := runMixer combine aecProcess (mixerTwoStream ch) events with hm
  have hpush : pushSamples combine aecProcess ae md m samples false
      = processCapture combine aecProcess ae md
          { m with capture_buffer := m.capture_buffer ++ samples } := by
    unfold pushSamples
    rw [if_neg (by omega), if_neg (by simp)]
  rw [hpush]
  have hcon : (processCapture combine aecProcess ae md
        { m with capture_buffer := m.capture_buffer ++ samples }).captures_processed
          * (AEC_FRAME_SAMPLES * m.channels)
        + (processCapture combine aecProcess ae md
            { m with capture_buffer := m.capture_buffer ++ samples }).render_mix_buffer.length
      = m.captures_processed * (AEC_FRAME_SAMPLES * m.channels)
        + m.render_mix_buffer.length :=
    processCapture_conserve combine aecProcess ae md
      { m with capture_buffer := m.capture_buffer ++ samples }
  have hF : 0 < AEC_FRAME_SAMPLES * m.channels := by omega
  by_contra hcontra
  push_neg at hcontra
  have hmul : (m.aec_render_frames + 1) * (AEC_FRAME_SAMPLES * m.channels)
      ≤ (processCapture combine aecProcess ae md
          { m with capture_buffer := m.capture_buffer ++ samples }).captures_processed
        * (AEC_FRAME_SAMPLES * m.channels) :=
    Nat.mul_le_mul_right _ hcontra
  rw [Nat.succ_mul] at hmul
  omega

/-- Witness for C2: one 480-sample render push, then a capture push, on a
mono two-stream mixer. -/
theorem mixer_render_precedes_capture_witness :
    (AudioMixer.pushSamples AudioMixer.pipewireCombine id true RecordingMode.EchoCancel
        (AudioMixer.runMixer AudioMixer.pipewireCombine id (AudioMixer.mixerTwoStream 1)
          [{ samples := List.replicate 480 (0 : ℚ), is_sink_capture := true,
             aec_enabled := true, mode := RecordingMode.EchoCancel }])
        (List.replicate 480 (0 : ℚ)) false).captures_processed
      ≤ (AudioMixer.runMixer AudioMixer.pipewireCombine id (AudioMixer.mixerTwoStream 1)
          [{ samples := List.replicate 480 (0 : ℚ), is_sink_capture := true,
             aec_enabled := true, mode := RecordingMode.EchoCancel }]).aec_render_frames :=
  mixer_render_precedes_capture 1 (by norm_num) AudioMixer.pipewireCombine id
    [{ samples := List.replicate 480 (0 : ℚ), is_sink_capture := true,
       aec_enabled := true, mode := RecordingMode.EchoCancel }]
    true RecordingMode.EchoCancel (List.replicate 480 (0 : ℚ))

/-- One capture-processing round appends exactly one output frame; the next
`m.outputs.length + 1` outputs are the old ones plus the frame computed from
the heads of the two buffers. -/
lemma processCapture_first_output (c : ℚ → ℚ → ℚ) (a : List ℚ → List ℚ)
    (ae : Bool) (md : RecordingMode) (m : AudioMixer)
    (h : 0 < AEC_FRAME_SAMPLES * m.channels
      ∧ AEC_FRAME_SAMPLES * m.channels ≤ m.capture_buffer.length
      ∧ AEC_FRAME_SAMPLES * m.channels ≤ m.render_mix_buffer.length) :
    (processCapture c a ae md m).outputs.take (m.outputs.length + 1)
      = m.outputs ++ [outputFrame c a ae md m] := by
  rw [processCapture.eq_def, dif_pos h]
  obtain ⟨t, ht⟩ := processCapture_outputs_extend c a ae md
    { m with
      capture_buffer := m.capture_buffer.drop (AEC_FRAME_SAMPLES * m.channels)
      render_mix_buffer :=
        m.render_mix_buffer.drop (AEC_FRAME_SAMPLES * m.channels)
      captures_processed := m.captures_processed + 1
      outputs := m.outputs ++ [outputFrame c a ae md m] }
  rw [ht]
  show ((m.outputs ++ [outputFrame c a ae md m]) ++ t).take (m.outputs.length + 1)
      = m.outputs ++ [outputFrame c a ae md m]
  exact List.take_left' (by simp)

/-- C3 (amended): with AEC disabled and two streams active, each processed
10 ms capture chunk yields: on PipeWire in Mixed mode
`0.5·capture + 0.5·render`; on CoreAudio/WASAPI in Mixed mode the soft-clipped
plain sum `soft_clip(capture + render)` — which equals `capture + render`
whenever that sum is within `[-1, 1]` — and in EchoCancel mode, on every
platform, the raw capture chunk. -/
theorem mixer_output_modes (m : AudioMixer) (aecProcess : List ℚ → List ℚ)
    (e : ℚ → ℚ)
    (h0 : 0 < AEC_FRAME_SAMPLES * m.channels)
    (hc : AEC_FRAME_SAMPLES * m.channels ≤ m.capture_buffer.length)
    (hm : AEC_FRAME_SAMPLES * m.channels ≤ m.render_mix_buffer.length) :
    ((processCapture pipewireCombine aecProcess false RecordingMode.Mixed
        m).outputs.take (m.outputs.length + 1)
      = m.outputs ++ [List.zipWith (fun s1 s2 => (s1 + s2) * (1/2))
          (m.capture_buffer.take (AEC_FRAME_SAMPLES * m.channels))
          (m.render_mix_buffer.take (AEC_FRAME_SAMPLES * m.channels))])
    ∧ ((processCapture (softClipCombine e) aecProcess false RecordingMode.Mixed
        m).outputs.take (m.outputs.length + 1)
      = m.outputs ++ [List.zipWith (softClipCombine e)
          (m.capture_buffer.take (AEC_FRAME_SAMPLES * m.channels))
          (m.render_mix_buffer.take (AEC_FRAME_SAMPLES * m.channels))])
    ∧ (∀ combine : ℚ → ℚ → ℚ,
        (processCapture combine aecProcess false RecordingMode.EchoCancel
          m).outputs.take (m.outputs.length + 1)
        = m.outputs ++ [m.capture_buffer.take (AEC_FRAME_SAMPLES * m.channels)])
    ∧ (∀ s1 s2 : ℚ, -1 ≤ s1 + s2 → s1 + s2 ≤ 1 →
        softClipCombine e s1 s2 = s1 + s2) := by
  have hproc : processedCaptureFrame aecProcess false m
      = m.capture_buffer.take (AEC_FRAME_SAMPLES * m.channels) := by
    rw [processedCaptureFrame, if_neg (fun hcon => Bool.false_ne_true hcon.1)]
  refine ⟨?_, ?_, ?_, ?_⟩
  · rw [processCapture_first_output _ _ _ _ _ ⟨h0, hc, hm⟩]
    rw [outputFrame, hproc]
    rfl
  · rw [processCapture_first_output _ _ _ _ _ ⟨h0, hc, hm⟩]
    rw [outputFrame, hproc]
  · intro combine
    rw [processCapture_first_output _ _ _ _ _ ⟨h0, hc, hm⟩]
    rw [outputFrame, hproc]
  · intro s1 s2 hlo hhi
    rw [softClipCombine, if_neg (by linarith), if_neg (by linarith)]

/-- Witness for C3: a mono mixer with one full capture frame (all 0.5) and
one full render-mix frame (all 0.4) buffered; the EchoCancel output is the
raw capture frame. -/
theorem mixer_output_modes_witness :
    (AudioMixer.processCapture AudioMixer.pipewireCombine id false
        RecordingMode.EchoCancel
        { capture_buffer := List.replicate 480 ((1 : ℚ)/2)
          render_buffer := []
          render_mix_buffer := List.replicate 480 ((2 : ℚ)/5)
          num_streams := 2, channels := 1, hasAec := true
          aec_render_frames := 1, captures_processed := 0
          outputs := [] }).outputs.take
      (List.length ([] : List (List ℚ)) + 1)
      = ([] : List (List ℚ))
        ++ [(List.replicate 480 ((1 : ℚ)/2)).take (AEC_FRAME_SAMPLES * 1)] :=
  (mixer_output_modes
    { capture_buffer := List.replicate 480 ((1 : ℚ)/2)
      render_buffer := []
      render_mix_buffer := List.replicate 480 ((2 : ℚ)/5)
      num_streams := 2, channels := 1, hasAec := true
      aec_render_frames := 1, captures_processed := 0
      outputs := [] } id (fun _ => 0)
    (by norm_num [AEC_FRAME_SAMPLES])
    (by show AEC_FRAME_SAMPLES * 1 ≤ (List.replicate 480 ((1 : ℚ)/2)).length
        rw [List.length_replicate]; norm_num [AEC_FRAME_SAMPLES])
    (by show AEC_FRAME_SAMPLES * 1 ≤ (List.replicate 480 ((2 : ℚ)/5)).length
        rw [List.length_replicate]; norm_num [AEC_FRAME_SAMPLES])).2.2.1
    AudioMixer.pipewireCombine

/-- When exactly one capture frame is buffered (and a render-mix frame is
available), `process_capture` runs one round and stops. -/
lemma processCapture_single (c : ℚ → ℚ → ℚ) (a : List ℚ → List ℚ)
    (ae : Bool) (md : RecordingMode) (m : AudioMixer)
    (h0 : 0 < AEC_FRAME_SAMPLES * m.channels)
    (hc : m.capture_buffer.length = AEC_FRAME_SAMPLES * m.channels)
    (hm : AEC_FRAME_SAMPLES * m.channels ≤ m.render_mix_buffer.length)
    (hout : m.outputs = []) :
    (processCapture c a ae md m).outputs = [outputFrame c a ae md m] := by
  rw [processCapture.eq_def, dif_pos ⟨h0, le_of_eq hc.symm, hm⟩]
  rw [processCapture.eq_def, dif_neg ?stop]
  case stop =>
    intro hcon
    have h2 := hcon.2.1
    rw [List.length_drop] at h2
    rw [hc] at h2
    omega
  show m.outputs ++ [outputFrame c a ae md m] = [outputFrame c a ae md m]
  rw [hout, List.nil_append]

/-- With AEC disabled, the Mixed-mode output frame is the plain combine of
the two buffered frames. -/
lemma outputFrame_mixed_noaec (c : ℚ → ℚ → ℚ) (a : List ℚ → List ℚ)
    (m : AudioMixer) :
    outputFrame c a false RecordingMode.Mixed m
      = List.zipWith c (m.capture_buffer.take (AEC_FRAME_SAMPLES * m.channels))
          (m.render_mix_buffer.take (AEC_FRAME_SAMPLES * m.channels)) := by
  simp only [outputFrame, processedCaptureFrame]
  rw [if_neg (fun hcon => Bool.false_ne_true hcon.1)]

/-- Counterexample for C3 as stated: on the CoreAudio/WASAPI mixer (soft-clip
combine) with AEC disabled, Mixed mode, capture all 0.5 and render all 0.4,
the produced chunk is all 0.9 (= capture + render, in the clip-free range) —
not the claimed 0.5·capture + 0.5·render = 0.45. -/
theorem mixer_mixed_not_half_counterexample :
    (AudioMixer.processCapture (AudioMixer.softClipCombine (fun _ => 0)) id
        false RecordingMode.Mixed
        { capture_buffer := List.replicate 480 ((1 : ℚ)/2)
          render_buffer := []
          render_mix_buffer := List.replicate 480 ((2 : ℚ)/5)
          num_streams := 2, channels := 1, hasAec := true
          aec_render_frames := 1, captures_processed := 0
          outputs := [] }).outputs
      = [List.replicate 480 ((9 : ℚ)/10)]
    ∧ List.replicate 480 ((9 : ℚ)/10)
      ≠ List.zipWith (fun s1 s2 => (s1 + s2) * (1/2))
          (List.replicate 480 ((1 : ℚ)/2)) (List.replicate 480 ((2 : ℚ)/5)) := by
  constructor
  · have h1 := processCapture_single (softClipCombine (fun _ => 0)) id false
      RecordingMode.Mixed
      { capture_buffer := List.replicate 480 ((1 : ℚ)/2)
        render_buffer := []
        render_mix_buffer := List.replicate 480 ((2 : ℚ)/5)
        num_streams := 2, channels := 1, hasAec := true
        aec_render_frames := 1, captures_processed := 0
        outputs := [] }
      (by norm_num [AEC_FRAME_SAMPLES])
      (by show (List.replicate 480 ((1 : ℚ)/2)).length = AEC_FRAME_SAMPLES * 1
          rw [List.length_replicate]; norm_num [AEC_FRAME_SAMPLES])
      (by show AEC_FRAME_SAMPLES * 1 ≤ (List.replicate 480 ((2 : ℚ)/5)).length
          rw [List.length_replicate]; norm_num [AEC_FRAME_SAMPLES])
      rfl
    rw [h1, outputFrame_mixed_noaec]
    show [List.zipWith (softClipCombine (fun _ => 0))
        ((List.replicate 480 ((1 : ℚ)/2)).take (AEC_FRAME_SAMPLES * 1))
        ((List.replicate 480 ((2 : ℚ)/5)).take (AEC_FRAME_SAMPLES * 1))] = _
    rw [take_replicate, take_replicate,
      show min (AEC_FRAME_SAMPLES * 1) 480 = 480 from by norm_num [AEC_FRAME_SAMPLES],
      List.zipWith_replicate',
      show softClipCombine (fun _ => (0 : ℚ)) ((1 : ℚ)/2) ((2 : ℚ)/5) = 9/10 from by
        rw [softClipCombine, if_neg (by norm_num), if_neg (by norm_num)]
        norm_num]
  · intro hcontra
    rw [List.zipWith_replicate'] at hcontra
    have := List.replicate_right_injective (by norm_num : (480 : ℕ) ≠ 0) hcontra
    norm_num at this

/-- In the run below, each push is a 480-sample (10 ms at 48 kHz mono)
capture chunk with no render arriving at all. -/
lemma capture_drought_run (c : ℚ → ℚ → ℚ) (a : List ℚ → List ℚ) :
    ∀ (j n : ℕ),
    runMixer c a
      { mixerTwoStream 1 with capture_buffer := List.replicate n 0 }
      (List.replicate j
        { samples := List.replicate 480 (0 : ℚ), is_sink_capture := false,
          aec_enabled := true, mode := RecordingMode.EchoCancel })
    = { mixerTwoStream 1 with capture_buffer := List.replicate (n + 480 * j) 0 } := by
  intro j
  induction j with
  | zero => intro n; rw [Nat.mul_zero, Nat.add_zero]; rfl
  | succ j ih =>
    intro n
    have hstep : pushSamples c a true RecordingMode.EchoCancel
        { mixerTwoStream 1 with capture_buffer := List.replicate n 0 }
        (List.replicate 480 0) false
      = { mixerTwoStream 1 with capture_buffer := List.replicate (n + 480) 0 } := by
      unfold pushSamples
      rw [if_neg (by show ¬((2 : ℕ) = 1); omega),
        if_neg (fun hcon => Bool.false_ne_true hcon)]
      rw [processCapture.eq_def, dif_neg ?stop]
      case stop =>
        show ¬(_ ∧ _ ∧ _)
        rw [not_and_or, not_and_or]
        refine Or.inr (Or.inr ?_)
        show ¬(AEC_FRAME_SAMPLES * 1 ≤ List.length ([] : List ℚ))
        norm_num [AEC_FRAME_SAMPLES]
      show ({ mixerTwoStream 1 with
          capture_buffer := List.replicate n 0 ++ List.replicate 480 0 } : AudioMixer)
        = _
      rw [← List.replicate_add]
    have hunf : runMixer c a
        { mixerTwoStream 1 with capture_buffer := List.replicate n 0 }
        (List.replicate (j + 1)
          { samples := List.replicate 480 (0 : ℚ), is_sink_capture := false,
            aec_enabled := true, mode := RecordingMode.EchoCancel })
      = runMixer c a
          (pushSamples c a true RecordingMode.EchoCancel
            { mixerTwoStream 1 with capture_buffer := List.replicate n 0 }
            (List.replicate 480 0) false)
          (List.replicate j
            { samples := List.replicate 480 (0 : ℚ), is_sink_capture := false,
              aec_enabled := true, mode := RecordingMode.EchoCancel }) := by
      rw [List.replicate_succ]
      rfl
    rw [hunf, hstep, ih (n + 480)]
    rw [show n + 480 + 480 * j = n + 480 * (j + 1) from by ring]

/-- C9 (amended): in two-stream mode with the render stream silent, every
capture push is held unprocessed: after `j` capture-only pushes of one 10 ms
chunk each, all `480·j` samples are still in `capture_buffer` and nothing has
been output — there is no grace-period drop, so held capture grows without
bound. -/
theorem mixer_render_drought_no_drop (j : ℕ) :
    (AudioMixer.runMixer AudioMixer.pipewireCombine id (AudioMixer.mixerTwoStream 1)
        (List.replicate j
          { samples := List.replicate 480 (0 : ℚ), is_sink_capture := false,
            aec_enabled := true, mode := RecordingMode.EchoCancel })).capture_buffer.length
      = 480 * j
    ∧ (AudioMixer.runMixer AudioMixer.pipewireCombine id (AudioMixer.mixerTwoStream 1)
        (List.replicate j
          { samples := List.replicate 480 (0 : ℚ), is_sink_capture := false,
            aec_enabled := true, mode := RecordingMode.EchoCancel })).outputs
      = [] := by
  have h := capture_drought_run AudioMixer.pipewireCombine id j 0
  rw [show ({ mixerTwoStream 1 with capture_buffer := List.replicate 0 0 } : AudioMixer)
      = mixerTwoStream 1 from rfl] at h
  rw [h]
  constructor
  · show (List.replicate (0 + 480 * j) (0 : ℚ)).length = 480 * j
    rw [List.length_replicate]
    omega
  · rfl

/-- Counterexample for C9 as stated: after 150 consecutive 10 ms capture
pushes with no render (1.5 s of held capture at 48 kHz mono — past the claimed
1-second grace period), all 72 000 held samples are still buffered and no
capture data was dropped or emitted. -/
theorem mixer_drought_never_drops_counterexample :
    (AudioMixer.runMixer AudioMixer.pipewireCombine id (AudioMixer.mixerTwoStream 1)
        (List.replicate 150
          { samples := List.replicate 480 (0 : ℚ), is_sink_capture := false,
            aec_enabled := true, mode := RecordingMode.EchoCancel })).capture_buffer.length
      = 72000
    ∧ 48000 < 72000
    ∧ (AudioMixer.runMixer AudioMixer.pipewireCombine id (AudioMixer.mixerTwoStream 1)
        (List.replicate 150
          { samples := List.replicate 480 (0 : ℚ), is_sink_capture := false,
            aec_enabled := true, mode := RecordingMode.EchoCancel })).outputs
      = [] := by
  have h := capture_drought_run AudioMixer.pipewireCombine id 150 0
  rw [show ({ mixerTwoStream 1 with capture_buffer := List.replicate 0 0 } : AudioMixer)
      = mixerTwoStream 1 from rfl] at h
  rw [h]
  refine ⟨?_, by norm_num, rfl⟩
  show (List.replicate (0 + 480 * 150) (0 : ℚ)).length = 72000
  rw [List.length_replicate]

end AudioMixer

namespace SpeechDetector

/-- C10: the first `process` call on a fresh detector only stores metrics and
fills the lookback buffer: no event is emitted, no counter moves, the detector
is still not speaking, and only `initialized` flips — so speech can be
confirmed at the earliest on the second call. -/
theorem first_process_call_inert (sqrtA : ℚ → ℚ) (r : ℕ) (samples : List ℚ) :
    process sqrtA (with_defaults r) samples
      = { prepareFrame sqrtA (with_defaults r) samples with initialized := true }
    ∧ (process sqrtA (with_defaults r) samples).last_state_change
        = SpeechStateChange.none
    ∧ (process sqrtA (with_defaults r) samples).last_word_break_event = none
    ∧ (process sqrtA (with_defaults r) samples).is_speaking = false
    ∧ (process sqrtA (with_defaults r) samples).is_pending_voiced = false
    ∧ (process sqrtA (with_defaults r) samples).is_pending_whisper = false
    ∧ (process sqrtA (with_defaults r) samples).voiced_onset_count = 0
    ∧ (process sqrtA (with_defaults r) samples).whisper_onset_count = 0
    ∧ (process sqrtA (with_defaults r) samples).voiced_grace_count = 0
    ∧ (process sqrtA (with_defaults r) samples).whisper_grace_count = 0
    ∧ (process sqrtA (with_defaults r) samples).silence_sample_count = 0
    ∧ (process sqrtA (with_defaults r) samples).speech_sample_count = 0
    ∧ (process sqrtA (with_defaults r) samples).initialized = true
    ∧ (process sqrtA (with_defaults r) samples).lookback_buffer
        = (push_to_lookback_buffer (with_defaults r) samples).lookback_buffer
    ∧ (process sqrtA (with_defaults r) samples).last_amplitude_rms
        = calculate_rms sqrtA samples :=
  ⟨rfl, rfl, rfl, rfl, rfl, rfl, rfl, rfl, rfl, rfl, rfl, rfl, rfl, rfl, rfl⟩

lemma update_avg_fields (d : SpeechDetector) (rms : ℚ) (n : ℕ) :
    (update_speech_amplitude_average d rms n).is_speaking = d.is_speaking
    ∧ (update_speech_amplitude_average d rms n).is_pending_voiced
        = d.is_pending_voiced
    ∧ (update_speech_amplitude_average d rms n).is_pending_whisper
        = d.is_pending_whisper
    ∧ (update_speech_amplitude_average d rms n).speech_sample_count
        = d.speech_sample_count
    ∧ (update_speech_amplitude_average d rms n).silence_sample_count
        = d.silence_sample_count
    ∧ (update_speech_amplitude_average d rms n).last_state_change
        = d.last_state_change := by
  unfold update_speech_amplitude_average
  beta_reduce
  split_ifs <;> exact ⟨rfl, rfl, rfl, rfl, rfl, rfl⟩

lemma wordBreakEndCheck_fields (d : SpeechDetector) :
    (wordBreakEndCheck d).is_speaking = d.is_speaking
    ∧ (wordBreakEndCheck d).is_pending_voiced = d.is_pending_voiced
    ∧ (wordBreakEndCheck d).is_pending_whisper = d.is_pending_whisper
    ∧ (wordBreakEndCheck d).speech_sample_count = d.speech_sample_count
    ∧ (wordBreakEndCheck d).silence_sample_count = d.silence_sample_count
    ∧ (wordBreakEndCheck d).last_state_change = d.last_state_change := by
  unfold wordBreakEndCheck
  beta_reduce
  split_ifs <;> exact ⟨rfl, rfl, rfl, rfl, rfl, rfl⟩

lemma wordBreakDetect_fields (d : SpeechDetector) (rms : ℚ) (n : ℕ) :
    (wordBreakDetect d rms n).is_speaking = d.is_speaking
    ∧ (wordBreakDetect d rms n).is_pending_voiced = d.is_pending_voiced
    ∧ (wordBreakDetect d rms n).is_pending_whisper = d.is_pending_whisper
    ∧ (wordBreakDetect d rms n).speech_sample_count = d.speech_sample_count
    ∧ (wordBreakDetect d rms n).silence_sample_count = d.silence_sample_count
    ∧ (wordBreakDetect d rms n).last_state_change = d.last_state_change
    ∧ (wordBreakDetect d rms n).hold_samples = d.hold_samples
    ∧ (wordBreakDetect d rms n).sample_rate = d.sample_rate := by
  unfold wordBreakDetect
  beta_reduce
  split_ifs <;> exact ⟨rfl, rfl, rfl, rfl, rfl, rfl, rfl, rfl⟩

lemma graceStep_fields (d : SpeechDetector) (n : ℕ) :
    (graceStep d n).is_speaking = d.is_speaking
    ∧ (graceStep d n).speech_sample_count = d.speech_sample_count
    ∧ (graceStep d n).silence_sample_count = d.silence_sample_count
    ∧ (graceStep d n).last_state_change = d.last_state_change
    ∧ (graceStep d n).hold_samples = d.hold_samples
    ∧ (graceStep d n).sample_rate = d.sample_rate
    ∧ (d.is_pending_voiced = false →
        (graceStep d n).is_pending_voiced = false)
    ∧ (d.is_pending_whisper = false →
        (graceStep d n).is_pending_whisper = false) := by
  unfold graceStep
  beta_reduce
  split_ifs with h1 h2 h3 h4 h5 h6 h7 h8 <;>
    refine ⟨rfl, rfl, rfl, rfl, rfl, rfl, ?_, ?_⟩ <;>
    simp_all

lemma holdCheck_ends (d : SpeechDetector) :
    (d.hold_samples ≤ d.silence_sample_count →
      (holdCheck d).is_speaking = false
      ∧ (holdCheck d).speech_sample_count = 0
      ∧ (holdCheck d).is_pending_voiced = d.is_pending_voiced
      ∧ (holdCheck d).is_pending_whisper = d.is_pending_whisper
      ∧ (holdCheck d).last_state_change
          = SpeechStateChange.ended (d.speech_sample_count * 1000 / d.sample_rate)
      ∧ (holdCheck d).silence_sample_count = d.silence_sample_count)
    ∧ (d.silence_sample_count < d.hold_samples → holdCheck d = d) := by
  unfold holdCheck
  constructor
  · intro h
    rw [if_pos h]
    exact ⟨rfl, rfl, rfl, rfl, rfl, rfl⟩
  · intro h
    rw [if_neg (by omega)]

lemma reset_onset_fields (d : SpeechDetector) :
    (reset_onset_state d).is_speaking = d.is_speaking
    ∧ (reset_onset_state d).speech_sample_count = d.speech_sample_count
    ∧ (reset_onset_state d).silence_sample_count = d.silence_sample_count
    ∧ (reset_onset_state d).is_pending_voiced = false
    ∧ (reset_onset_state d).is_pending_whisper = false
    ∧ (reset_onset_state d).last_state_change = d.last_state_change
    ∧ (reset_onset_state d).hold_samples = d.hold_samples
    ∧ (reset_onset_state d).sample_rate = d.sample_rate := by
  exact ⟨rfl, rfl, rfl, rfl, rfl, rfl, rfl, rfl⟩

lemma confirmSpeech_fields (d : SpeechDetector) (n : ℕ) :
    (confirmSpeech d n).is_speaking = true
    ∧ (confirmSpeech d n).is_pending_voiced = false
    ∧ (confirmSpeech d n).is_pending_whisper = false
    ∧ (confirmSpeech d n).speech_sample_count = n := by
  exact ⟨rfl, rfl, rfl, rfl⟩

lemma inv_of_confirm (d : SpeechDetector) (n : ℕ) :
    DetectorInv (confirmSpeech d n) := by
  obtain ⟨h1, h2, h3, _⟩ := confirmSpeech_fields d n
  refine ⟨fun hf => ?_, fun _ => ⟨h2, h3⟩⟩
  rw [h1] at hf
  cases hf

lemma inv_of_idle (d : SpeechDetector) (hsp : d.is_speaking = false)
    (hcnt : d.speech_sample_count = 0) : DetectorInv d := by
  refine ⟨fun _ => hcnt, fun ht => ?_⟩
  rw [hsp] at ht
  cases ht

lemma handleOnset_inv (d : SpeechDetector) (v w : Bool) (n : ℕ)
    (hsp : d.is_speaking = false) (hcnt : d.speech_sample_count = 0) :
    DetectorInv (handleOnset d v w n) := by
  unfold handleOnset
  beta_reduce
  split_ifs <;>
    first
      | exact inv_of_confirm _ _
      | (refine inv_of_idle _ ?_ ?_ <;> first | exact hsp | exact hcnt)

lemma processCore_inv (d : SpeechDetector) (f : ℚ × ℚ × ℚ) (len : ℕ)
    (h : DetectorInv d) : DetectorInv (processCore d f len) := by
  unfold processCore
  beta_reduce
  set d0 := if d.last_is_transient = true then reset_onset_state d else d with hd0
  have hInv0 : DetectorInv d0 := by
    rw [hd0]
    split_ifs with ht
    · exact ⟨fun hf => h.1 hf, fun _ => ⟨rfl, rfl⟩⟩
    · exact h
  by_cases htr : d.last_is_transient = true ∧ d0.is_speaking = false
  · rw [if_pos htr]
    exact hInv0
  · rw [if_neg htr]
    by_cases hcand : matchesMode d.voiced_config f.1 f.2.1 f.2.2
        ∨ matchesMode d.whisper_config f.1 f.2.1 f.2.2
    · rw [if_pos hcand]
      by_cases hspk :
          ({ d0 with silence_sample_count := 0 } : SpeechDetector).is_speaking
            = true
      · rw [if_pos hspk]
        have hspk0 : d0.is_speaking = true := hspk
        obtain ⟨w1, w2, w3, w4, w5, w6⟩ :=
          wordBreakEndCheck_fields (update_speech_amplitude_average
            { d0 with
              silence_sample_count := 0
              speech_sample_count :=
                ({ d0 with silence_sample_count := 0 }
                  : SpeechDetector).speech_sample_count + len }
            f.1 len)
        obtain ⟨u1, u2, u3, u4, u5, u6⟩ := update_avg_fields
          { d0 with
            silence_sample_count := 0
            speech_sample_count :=
              ({ d0 with silence_sample_count := 0 }
                : SpeechDetector).speech_sample_count + len }
          f.1 len
        constructor
        · intro hf
          rw [w1, u1] at hf
          have hf0 : d0.is_speaking = false := hf
          rw [hspk0] at hf0
          cases hf0
        · intro _
          refine ⟨?_, ?_⟩
          · rw [w2, u2]
            exact (hInv0.2 hspk0).1
          · rw [w3, u3]
            exact (hInv0.2 hspk0).2
      · rw [if_neg hspk]
        have hspk0 : d0.is_speaking = false := by
          have := Bool.eq_false_iff.mpr (fun hc => hspk (by exact hc))
          exact this
        exact handleOnset_inv _ _ _ _ hspk0 (hInv0.1 hspk0)
    · rw [if_neg hcand]
      by_cases hspk : (graceStep d0 len).is_speaking = true
      · rw [if_pos hspk]
        have hspk0 : d0.is_speaking = true := by
          rw [← (graceStep_fields d0 len).1]
          exact hspk
        obtain ⟨g1, g2, g3, g4, g5, g6, g7, g8⟩ := graceStep_fields d0 len
        obtain ⟨b1, b2, b3, b4, b5, b6, b7, b8⟩ := wordBreakDetect_fields
          { graceStep d0 len with
            silence_sample_count :=
              (graceStep d0 len).silence_sample_count + len }
          f.1 len
        set W := wordBreakDetect
          { graceStep d0 len with
            silence_sample_count :=
              (graceStep d0 len).silence_sample_count + len }
          f.1 len with hW
        obtain ⟨he1, he2⟩ := holdCheck_ends W
        by_cases hhold : W.hold_samples ≤ W.silence_sample_count
        · obtain ⟨e1, e2, e3, e4, e5, e6⟩ := he1 hhold
          refine ⟨fun _ => e2, fun ht => ?_⟩
          rw [ht] at e1
          cases e1
        · rw [he2 (by omega)]
          constructor
          · intro hf
            rw [b1] at hf
            have hf2 : (graceStep d0 len).is_speaking = false := hf
            rw [hspk] at hf2
            cases hf2
          · intro _
            have hp := hInv0.2 hspk0
            refine ⟨?_, ?_⟩
            · rw [b2]
              have : (graceStep d0 len).is_pending_voiced = false := g7 hp.1
              exact this
            · rw [b3]
              exact g8 hp.2
      · rw [if_neg hspk]
        have hspk0 : (graceStep d0 len).is_speaking = false :=
          Bool.eq_false_iff.mpr (fun hc => hspk hc)
        have hd0sp : d0.is_speaking = false := by
          rw [← (graceStep_fields d0 len).1]
          exact hspk0
        refine ⟨fun _ => ?_, fun ht => ?_⟩
        · rw [(graceStep_fields d0 len).2.1]
          exact hInv0.1 hd0sp
        · rw [hspk0] at ht
          cases ht

/-- One `process` call preserves the invariant. -/
lemma process_inv (sqrtA : ℚ → ℚ) (d : SpeechDetector) (samples : List ℚ)
    (h : DetectorInv d) : DetectorInv (process sqrtA d samples) := by
  unfold process
  beta_reduce
  have hpf : DetectorInv (prepareFrame sqrtA d samples) := by
    refine ⟨fun hf => ?_, fun ht => ?_⟩
    · exact h.1 hf
    · exact h.2 ht
  split_ifs with hinit
  · exact ⟨fun hf => hpf.1 hf, fun ht => hpf.2 ht⟩
  · exact processCore_inv _ _ _ hpf

lemma foldl_process_inv (sqrtA : ℚ → ℚ) :
    ∀ (frames : List (List ℚ)) (d : SpeechDetector), DetectorInv d →
      DetectorInv (frames.foldl (process sqrtA) d) := by
  intro frames
  induction frames with
  | nil => exact fun d h => h
  | cons s t ih => exact fun d h => ih _ (process_inv sqrtA d s h)

/-- C8: from a freshly constructed detector, after every `process` call the
state invariant holds: not speaking implies the post-onset speech counter is
0, and speaking implies neither onset-pending flag is set. -/
theorem detector_state_invariant (sqrtA : ℚ → ℚ) (r : ℕ)
    (frames : List (List ℚ)) :
    DetectorInv (frames.foldl (process sqrtA) (with_defaults r)) :=
  foldl_process_inv sqrtA frames (with_defaults r)
    ⟨fun _ => rfl, fun ht => by cases ht⟩

/-- C6: while speaking, a frame matching neither voiced nor whisper features
adds its length to the silence counter; on the call where the accumulated
silence first reaches the hold time, exactly one `Ended{duration_ms}` event
fires with `duration_ms` the post-onset speech sample count converted to
milliseconds, and the speaking state is cleared — below the hold time no
event fires and the detector stays speaking. -/
theorem nonmatching_frame_silence (sqrtA : ℚ → ℚ) (d : SpeechDetector)
    (samples : List ℚ)
    (hinit : d.initialized = true)
    (hspeak : d.is_speaking = true)
    (hnv : ¬ matchesMode d.voiced_config (frameFeatures sqrtA d samples).1
        (frameFeatures sqrtA d samples).2.1 (frameFeatures sqrtA d samples).2.2)
    (hnw : ¬ matchesMode d.whisper_config (frameFeatures sqrtA d samples).1
        (frameFeatures sqrtA d samples).2.1 (frameFeatures sqrtA d samples).2.2) :
    (process sqrtA d samples).silence_sample_count
        = d.silence_sample_count + samples.length
    ∧ (d.hold_samples ≤ d.silence_sample_count + samples.length →
        (process sqrtA d samples).last_state_change
            = SpeechStateChange.ended (d.speech_sample_count * 1000 / d.sample_rate)
        ∧ (process sqrtA d samples).is_speaking = false
        ∧ (process sqrtA d samples).speech_sample_count = 0)
    ∧ (d.silence_sample_count + samples.length < d.hold_samples →
        (process sqrtA d samples).last_state_change = SpeechStateChange.none
        ∧ (process sqrtA d samples).is_speaking = true) := by
  unfold process
  beta_reduce
  rw [if_neg (fun hc => by
    have hc2 : d.initialized = false := hc
    rw [hinit] at hc2
    cases hc2)]
  unfold processCore
  beta_reduce
  set d0 := if (prepareFrame sqrtA d samples).last_is_transient = true
      then reset_onset_state (prepareFrame sqrtA d samples)
      else prepareFrame sqrtA d samples with hd0
  have hd0fields : d0.is_speaking = true
      ∧ d0.silence_sample_count = d.silence_sample_count
      ∧ d0.speech_sample_count = d.speech_sample_count
      ∧ d0.hold_samples = d.hold_samples
      ∧ d0.sample_rate = d.sample_rate
      ∧ d0.last_state_change = SpeechStateChange.none := by
    rw [hd0]
    split_ifs with ht
    · exact ⟨hspeak, rfl, rfl, rfl, rfl, rfl⟩
    · exact ⟨hspeak, rfl, rfl, rfl, rfl, rfl⟩
  obtain ⟨k1, k2, k3, k4, k5, k6⟩ := hd0fields
  rw [if_neg (fun hc => by rw [k1] at hc; cases hc.2)]
  rw [if_neg (fun hc => hc.elim hnv hnw)]
  obtain ⟨g1, g2, g3, g4, g5, g6, g7, g8⟩ := graceStep_fields d0 samples.length
  rw [if_pos (by rw [g1]; exact k1)]
  obtain ⟨b1, b2, b3, b4, b5, b6, b7, b8⟩ := wordBreakDetect_fields
    { graceStep d0 samples.length with
      silence_sample_count :=
        (graceStep d0 samples.length).silence_sample_count + samples.length }
    (frameFeatures sqrtA d samples).1 samples.length
  set W := wordBreakDetect
    { graceStep d0 samples.length with
      silence_sample_count :=
        (graceStep d0 samples.length).silence_sample_count + samples.length }
    (frameFeatures sqrtA d samples).1 samples.length with hW
  have hWsil : W.silence_sample_count
      = d.silence_sample_count + samples.length := by
    rw [b5]
    show (graceStep d0 samples.length).silence_sample_count + samples.length = _
    rw [g3, k2]
  have hWspk : W.is_speaking = true := by
    rw [b1]
    show (graceStep d0 samples.length).is_speaking = true
    rw [g1]
    exact k1
  have hWhold : W.hold_samples = d.hold_samples := by
    rw [b7]
    show (graceStep d0 samples.length).hold_samples = _
    rw [g5, k4]
  have hWspeech : W.speech_sample_count = d.speech_sample_count := by
    rw [b4]
    show (graceStep d0 samples.length).speech_sample_count = _
    rw [g2, k3]
  have hWrate : W.sample_rate = d.sample_rate := by
    rw [b8]
    show (graceStep d0 samples.length).sample_rate = _
    rw [g6, k5]
  have hWstate : W.last_state_change = SpeechStateChange.none := by
    rw [b6]
    show (graceStep d0 samples.length).last_state_change = _
    rw [g4, k6]
  obtain ⟨he1, he2⟩ := holdCheck_ends W
  refine ⟨?_, ?_, ?_⟩
  · by_cases hhold : W.hold_samples ≤ W.silence_sample_count
    · rw [(he1 hhold).2.2.2.2.2, hWsil]
    · rw [he2 (by omega), hWsil]
  · intro hge
    have hhold : W.hold_samples ≤ W.silence_sample_count := by
      rw [hWhold, hWsil]
      exact hge
    obtain ⟨e1, e2, e3, e4, e5, e6⟩ := he1 hhold
    refine ⟨?_, e1, e2⟩
    rw [e5, hWspeech, hWrate]
  · intro hlt
    have hhold : W.silence_sample_count < W.hold_samples := by
      rw [hWhold, hWsil]
      exact hlt
    rw [he2 hhold]
    exact ⟨hWstate, hWspk⟩

/-- Witness for C6: a 10 Hz detector (hold = 3 samples) that is speaking with
2 samples of silence accumulated and 5 post-onset speech samples; a 2-sample
all-zero frame (matching no mode) crosses the hold and emits
`Ended{500 ms}`. -/
theorem nonmatching_frame_silence_witness :
    (process (fun _ => 0)
        { with_defaults 10 with
          initialized := true
          is_speaking := true
          silence_sample_count := 2
          speech_sample_count := 5 }
        [0, 0]).last_state_change = SpeechStateChange.ended 500 := by
  have h := nonmatching_frame_silence (fun _ => 0)
    { with_defaults 10 with
      initialized := true
      is_speaking := true
      silence_sample_count := 2
      speech_sample_count := 5 }
    [0, 0] rfl rfl (by decide) (by decide)
  have h2 := h.2.1 (by decide)
  rw [h2.1]
  rfl

/-- Fuel irrelevance for the scan body: any fuel of at least `pos` computes
the same result, since `pos` strictly decreases at every step. -/
lemma lookbackScanAux_fuel (buffer : List ℚ) :
    ∀ (pos fuel fuel' fa : ℕ), pos ≤ fuel → pos ≤ fuel' →
      lookbackScanAux buffer fuel pos fa = lookbackScanAux buffer fuel' pos fa := by
  intro pos
  induction pos using Nat.strong_induction_on with
  | _ pos ih =>
    intro fuel fuel' fa hf hf'
    match fuel, fuel' with
    | 0, 0 => rfl
    | 0, g' + 1 =>
      have h0 : pos = 0 := Nat.le_zero.mp hf
      subst h0
      simp [lookbackScanAux]
    | g + 1, 0 =>
      have h0 : pos = 0 := Nat.le_zero.mp hf'
      subst h0
      simp [lookbackScanAux]
    | g + 1, g' + 1 =>
      by_cases h0 : pos = 0
      · subst h0
        simp [lookbackScanAux]
      · simp only [lookbackScanAux]
        rw [if_neg h0, if_neg h0]
        by_cases habove : peakAboveLookbackThreshold
            (chunkPeak ((buffer.drop (pos - 128)).take (pos - (pos - 128))))
        · rw [if_pos habove, if_pos habove]
          exact ih (pos - 128) (by omega) g g' (pos - 128) (by omega) (by omega)
        · rw [if_neg habove, if_neg habove]
          by_cases hfa : fa < buffer.length
          · rw [if_pos hfa, if_pos hfa]
          · rw [if_neg hfa, if_neg hfa]
            exact ih (pos - 128) (by omega) g g' fa (by omega) (by omega)

/-- The scan loop satisfies exactly the recurrence of the Rust `while` loop. -/
lemma lookbackScanLoop_unfold (buffer : List ℚ) (pos fa : ℕ) :
    lookbackScanLoop buffer pos fa =
      if pos = 0 then fa
      else if peakAboveLookbackThreshold
          (chunkPeak ((buffer.drop (pos - 128)).take (pos - (pos - 128)))) then
        lookbackScanLoop buffer (pos - 128) (pos - 128)
      else if fa < buffer.length then fa
      else lookbackScanLoop buffer (pos - 128) fa := by
  by_cases h0 : pos = 0
  · subst h0
    rw [if_pos rfl]
    rfl
  · obtain ⟨p, rfl⟩ : ∃ p, pos = p + 1 := ⟨pos - 1, by omega⟩
    rw [if_neg h0]
    show lookbackScanAux buffer (p + 1) (p + 1) fa = _
    simp only [lookbackScanAux]
    rw [if_neg h0]
    by_cases habove : peakAboveLookbackThreshold
        (chunkPeak ((List.drop (p + 1 - 128) buffer).take (p + 1 - (p + 1 - 128))))
    · rw [if_pos habove, if_pos habove]
      exact lookbackScanAux_fuel buffer (p + 1 - 128) p (p + 1 - 128)
        (p + 1 - 128) (by omega) (by omega)
    · rw [if_neg habove, if_neg habove]
      by_cases hfa : fa < buffer.length
      · rw [if_pos hfa, if_pos hfa]
      · rw [if_neg hfa, if_neg hfa]
        exact lookbackScanAux_fuel buffer (p + 1 - 128) p (p + 1 - 128) fa
          (by omega) (by omega)

/-- Fuel irrelevance for the chunk-boundary list. -/
lemma scanChunksAux_fuel :
    ∀ (pos fuel fuel' : ℕ), pos ≤ fuel → pos ≤ fuel' →
      scanChunksAux fuel pos = scanChunksAux fuel' pos := by
  intro pos
  induction pos using Nat.strong_induction_on with
  | _ pos ih =>
    intro fuel fuel' hf hf'
    match fuel, fuel' with
    | 0, 0 => rfl
    | 0, g' + 1 =>
      have h0 : pos = 0 := Nat.le_zero.mp hf
      subst h0
      simp [scanChunksAux]
    | g + 1, 0 =>
      have h0 : pos = 0 := Nat.le_zero.mp hf'
      subst h0
      simp [scanChunksAux]
    | g + 1, g' + 1 =>
      by_cases h0 : pos = 0
      · subst h0
        simp [scanChunksAux]
      · simp only [scanChunksAux]
        rw [if_neg h0, if_neg h0,
          ih (pos - 128) (by omega) g g' (by omega) (by omega)]

/-- The chunk-boundary list satisfies the recurrence of the backward walk. -/
lemma scanChunks_unfold (pos : ℕ) :
    scanChunks pos =
      if pos = 0 then [] else (pos - 128, pos) :: scanChunks (pos - 128) := by
  by_cases h0 : pos = 0
  · subst h0
    rw [if_pos rfl]
    rfl
  · obtain ⟨p, rfl⟩ : ∃ p, pos = p + 1 := ⟨pos - 1, by omega⟩
    rw [if_neg h0]
    show scanChunksAux (p + 1) (p + 1) = _
    simp only [scanChunksAux]
    rw [if_neg h0]
    congr 1
    exact scanChunksAux_fuel (p + 1 - 128) p (p + 1 - 128) (by omega) (by omega)

/-- The scan loop, rephrased over the explicit chunk list. -/
lemma lookbackScanLoop_eq_chunkFold (buffer : List ℚ) :
    ∀ (pos fa : ℕ), lookbackScanLoop buffer pos fa
      = chunkFold buffer buffer.length (scanChunks pos) fa := by
  intro pos
  induction pos using Nat.strong_induction_on with
  | _ pos ih =>
    intro fa
    by_cases h0 : pos = 0
    · subst h0
      rw [lookbackScanLoop_unfold, scanChunks_unfold]
      simp [chunkFold]
    · rw [lookbackScanLoop_unfold, scanChunks_unfold, if_neg h0, if_neg h0]
      by_cases habove :
          peakAboveLookbackThreshold
            (chunkPeak ((buffer.drop (pos - 128)).take (pos - (pos - 128))))
      · rw [if_pos habove]
        simp only [chunkFold]
        rw [if_pos (show chunkAbove buffer (pos - 128, pos) from habove)]
        exact ih (pos - 128) (by omega) (pos - 128)
      · rw [if_neg habove]
        simp only [chunkFold]
        rw [if_neg (show ¬ chunkAbove buffer (pos - 128, pos) from habove)]
        by_cases hfa : fa < buffer.length
        · rw [if_pos hfa, if_pos hfa]
        · rw [if_neg hfa, if_neg hfa]
          exact ih (pos - 128) (by omega) fa

/-- Every chunk start visited by the walk lies strictly before the walk
origin. -/
lemma scanChunks_fst_lt (pos : ℕ) : ∀ c ∈ scanChunks pos, c.1 < pos := by
  induction pos using Nat.strong_induction_on with
  | _ pos ih =>
    intro c hc
    rw [scanChunks_unfold] at hc
    by_cases h0 : pos = 0
    · rw [if_pos h0] at hc
      cases hc
    · rw [if_neg h0] at hc
      rcases List.mem_cons.mp hc with h | h
      · subst h
        show pos - 128 < pos
        omega
      · have := ih (pos - 128) (by omega) c h
        omega

/-- Phase 2 of the fold (an above-threshold chunk has been seen, so
`fa < len`): the fold follows the contiguous above-threshold run and returns
the start of its last chunk, stopping at the first below-threshold chunk. -/
lemma chunkFold_phase2 (buffer : List ℚ) (len : ℕ) :
    ∀ (chunks : List (ℕ × ℕ)) (fa : ℕ), (∀ c ∈ chunks, c.1 < len) → fa < len →
      chunkFold buffer len chunks fa =
        ((chunks.takeWhile (fun c => decide (chunkAbove buffer c))).map
          Prod.fst).getLastD fa := by
  intro chunks
  induction chunks with
  | nil =>
    intro fa _ _
    rfl
  | cons c rest ih =>
    intro fa hlt hfa
    by_cases hab : chunkAbove buffer c
    · simp only [chunkFold]
      rw [if_pos hab, List.takeWhile_cons, if_pos (decide_eq_true hab),
        List.map_cons, List.getLastD_cons]
      exact ih c.1 (fun c' hc' => hlt c' (List.mem_cons_of_mem _ hc'))
        (hlt c (List.mem_cons_self c rest))
    · simp only [chunkFold]
      rw [if_neg hab, if_pos hfa, List.takeWhile_cons,
        if_neg (by simpa using hab)]
      rfl

/-- Phase 1 of the fold (nothing seen yet, `fa = len`): below-threshold
chunks are skipped, and on the first above-threshold chunk the fold enters
phase 2. -/
lemma chunkFold_phase1 (buffer : List ℚ) (len : ℕ) :
    ∀ (chunks : List (ℕ × ℕ)), (∀ c ∈ chunks, c.1 < len) →
      chunkFold buffer len chunks len =
        (((chunks.dropWhile (fun c => ! decide (chunkAbove buffer c))).takeWhile
          (fun c => decide (chunkAbove buffer c))).map Prod.fst).getLastD len := by
  intro chunks
  induction chunks with
  | nil =>
    intro _
    rfl
  | cons c rest ih =>
    intro hlt
    by_cases hab : chunkAbove buffer c
    · simp only [chunkFold]
      rw [if_pos hab, List.dropWhile_cons, if_neg (by simp [hab]),
        List.takeWhile_cons, if_pos (decide_eq_true hab), List.map_cons,
        List.getLastD_cons]
      exact chunkFold_phase2 buffer len rest c.1
        (fun c' hc' => hlt c' (List.mem_cons_of_mem _ hc'))
        (hlt c (List.mem_cons_self c rest))
    · simp only [chunkFold]
      rw [if_neg hab, if_neg (lt_irrefl len), List.dropWhile_cons,
        if_pos (by simp [hab])]
      exact ih (fun c' hc' => hlt c' (List.mem_cons_of_mem _ hc'))

/-- The scan loop started at the end of the buffer computes exactly the
claim-side first-above-threshold index. -/
lemma lookbackScan_eq_specFirstAbove (buffer : List ℚ) :
    lookbackScanLoop buffer buffer.length buffer.length
      = specFirstAbove buffer := by
  rw [lookbackScanLoop_eq_chunkFold,
    chunkFold_phase1 buffer buffer.length (scanChunks buffer.length)
      (scanChunks_fst_lt buffer.length)]
  rfl

/-- Bounding helper: `getLastD` of a list of bounded numbers is bounded. -/
lemma getLastD_le_of (len : ℕ) :
    ∀ (l : List ℕ) (d : ℕ), d ≤ len → (∀ x ∈ l, x ≤ len) →
      l.getLastD d ≤ len := by
  intro l
  induction l with
  | nil =>
    intro d hd _
    exact hd
  | cons a l ih =>
    intro d hd h
    rw [List.getLastD_cons]
    exact ih a (h a (List.mem_cons_self a l))
      (fun x hx => h x (List.mem_cons_of_mem _ hx))

/-- The recorded first-above index never exceeds the buffer length. -/
lemma specFirstAbove_le (buffer : List ℚ) :
    specFirstAbove buffer ≤ buffer.length := by
  unfold specFirstAbove
  apply getLastD_le_of _ _ _ le_rfl
  intro x hx
  rcases List.mem_map.mp hx with ⟨c, hc, rfl⟩
  have hc2 : c ∈ scanChunks buffer.length :=
    (List.dropWhile_sublist _).subset ((List.takeWhile_sublist _).subset hc)
  exact (scanChunks_fst_lt buffer.length c hc2).le

/-- C7: when speech onset is confirmed, the lookback scan walks the
chronologically-ordered lookback buffer backwards in 128-sample chunks and
its result equals the claim-side characterization `specFirstAbove` (skip the
below-threshold chunks from the end, then follow the contiguous run of
above-threshold chunks — peak absolute sample at least `10^(-55/20)`,
rationalized as `peak^4 ≥ 10^(-11)` — stopping at the first below-threshold
chunk after an above-threshold one, and record the start of the earliest
chunk of that run); the recorded index never exceeds the buffer length; the
`Started` event's `lookback_samples` equals
`buffer_length - first_above_index + margin` (20 ms of samples), capped at
the buffer length; and `confirmSpeech` publishes exactly that count in the
`Started` state change together with the lookback offset. -/
theorem lookback_scan_correct (d : SpeechDetector) (onset : ℕ)
    (hne : d.get_lookback_buffer_contents ≠ []) :
    lookbackScanLoop d.get_lookback_buffer_contents
        d.get_lookback_buffer_contents.length
        d.get_lookback_buffer_contents.length
      = specFirstAbove d.get_lookback_buffer_contents
    ∧ specFirstAbove d.get_lookback_buffer_contents
        ≤ d.get_lookback_buffer_contents.length
    ∧ (find_lookback_start d).1.length
        = min (d.get_lookback_buffer_contents.length
              - specFirstAbove d.get_lookback_buffer_contents
              + d.sample_rate * 20 / 1000)
            d.get_lookback_buffer_contents.length
    ∧ (confirmSpeech d onset).last_state_change
        = SpeechStateChange.started (find_lookback_start d).1.length
    ∧ (confirmSpeech d onset).last_lookback_offset_ms
        = some (find_lookback_start d).2 := by
  refine ⟨lookbackScan_eq_specFirstAbove _, specFirstAbove_le _, ?_, rfl, rfl⟩
  have hb : d.get_lookback_buffer_contents.isEmpty = false := by
    simpa [List.isEmpty_iff] using hne
  have h1 := specFirstAbove_le d.get_lookback_buffer_contents
  unfold find_lookback_start
  beta_reduce
  rw [if_neg (by simp [hb])]
  rw [List.length_drop, lookbackScan_eq_specFirstAbove]
  omega

theorem lookback_scan_correct_witness :
    (push_to_lookback_buffer (with_defaults 10) [1, 1]).get_lookback_buffer_contents
        ≠ []
    ∧ (confirmSpeech (push_to_lookback_buffer (with_defaults 10) [1, 1])
        0).last_state_change
      = SpeechStateChange.started
          ((find_lookback_start
            (push_to_lookback_buffer (with_defaults 10) [1, 1])).1.length)
    ∧ (find_lookback_start
        (push_to_lookback_buffer (with_defaults 10) [1, 1])).1.length = 2 := by
  have hne : (push_to_lookback_buffer (with_defaults 10)
      [1, 1]).get_lookback_buffer_contents ≠ [] := by decide
  have h := lookback_scan_correct (push_to_lookback_buffer (with_defaults 10)
    [1, 1]) 0 hne
  have hc : (push_to_lookback_buffer (with_defaults 10)
      [1, 1]).get_lookback_buffer_contents = [1, 1] := by decide
  have hab : chunkAbove [1, 1] (0, 2) := by
    unfold chunkAbove peakAboveLookbackThreshold chunkPeak
    simp only [List.drop, List.take, List.map, List.foldl]
    norm_num
  have hs : specFirstAbove [1, 1] = 0 := by
    unfold specFirstAbove
    rw [show (([1, 1] : List ℚ)).length = 2 from rfl,
      show scanChunks 2 = [(0, 2)] from rfl]
    simp [hab]
  refine ⟨hne, h.2.2.2.1, ?_⟩
  rw [h.2.2.1, hc, hs]
  rfl

end SpeechDetector

end FlowSTT
